import Mathlib

/-!
# Verification of the `po_parser` Streamlit PO-extraction tool

Shallow embedding of the string-processing core of the repository:
the ILM/Westell purchase-order extractors (`helpers.py`,
`helpers/extractor.py`), the Westell page pipeline (`pages/2_Westell.py`),
the login gates of the pages (`app.py`, `pages/*.py`), the STEP-file
weight calculator (`weight_calc.py`) and the rule-based CSV
question-answering dispatcher (`helpers/data_analysis.py`).

Modelling conventions:
* PDF and STEP reading (PyMuPDF / OCP) are external libraries; they are
  modelled as an input that is either the extracted text (resp. the solid
  volume and bounding-box dimensions) or a raised exception message.
* Python strings are modelled over their character lists; `\w`, `\d`,
  `\s`, `lower`, `upper` are modelled on ASCII, matching the data the
  tool processes.
* Python decimal literals (strings matching `\d+\.\d+`) and float
  arithmetic on them are idealised as exact rationals; `round(x, 4)` is
  round-half-to-even at four decimal places, as Python's `round`.
-/

namespace POParser

/-- ASCII model of Python's `str.isspace` / `\s` class: the whitespace
characters stripped by `str.strip()`. -/
def pyIsSpace (c : Char) : Bool :=
  c = ' ' || c = '\t' || c = '\n' || c = '\r' || c = Char.ofNat 11 || c = Char.ofNat 12

/-- ASCII model of the regex word class `\w`: alphanumerics and `_`. -/
def isWordChar (c : Char) : Bool :=
  c.isAlphanum || c = '_'

/-- Python `str.lower()` (ASCII model). -/
def pyLower (s : String) : String :=
  ⟨s.data.map Char.toLower⟩

/-- Python `str.upper()` (ASCII model). -/
def pyUpper (s : String) : String :=
  ⟨s.data.map Char.toUpper⟩

/-- Python `str.strip()` with no argument: remove leading and trailing
whitespace. -/
def pyStrip (s : String) : String :=
  ⟨((s.data.dropWhile pyIsSpace).reverse.dropWhile pyIsSpace).reverse⟩

/-- Python `str.split()` with no argument: split on whitespace runs,
dropping empty pieces. -/
def pySplitWsChars : List Char → List Char → List String
  | [], acc => if acc.isEmpty then [] else [⟨acc.reverse⟩]
  | c :: rest, acc =>
    if pyIsSpace c then
      if acc.isEmpty then pySplitWsChars rest []
      else (⟨acc.reverse⟩ : String) :: pySplitWsChars rest []
    else pySplitWsChars rest (c :: acc)

/-- Python `str.split()` with no argument. -/
def pySplitWs (s : String) : List String :=
  pySplitWsChars s.data []

/-- Python `str.splitlines()`: split on `\n`, `\r\n` or `\r`, no
trailing empty line for a trailing line break. -/
def pySplitLinesChars : List Char → List Char → List String
  | [], acc => if acc.isEmpty then [] else [⟨acc.reverse⟩]
  | '\r' :: '\n' :: rest, acc => (⟨acc.reverse⟩ : String) :: pySplitLinesChars rest []
  | '\r' :: rest, acc => (⟨acc.reverse⟩ : String) :: pySplitLinesChars rest []
  | '\n' :: rest, acc => (⟨acc.reverse⟩ : String) :: pySplitLinesChars rest []
  | c :: rest, acc => pySplitLinesChars rest (c :: acc)

/-- Python `str.splitlines()`. -/
def pySplitLines (s : String) : List String :=
  pySplitLinesChars s.data []

/-- `s.startswith(pre)`. -/
def pyStartsWith (s pre : String) : Bool :=
  pre.data.isPrefixOf s.data

/-- Substring containment `sub in hay` (Python `in` operator on `str`). -/
def subListIn (needle : List Char) : List Char → Bool
  | [] => needle.isPrefixOf []
  | c :: rest => needle.isPrefixOf (c :: rest) || subListIn needle rest

/-- Substring containment `sub in hay`. -/
def strContains (hay sub : String) : Bool :=
  subListIn sub.data hay.data

/-- `s.replace(" ", "")`: remove every space character (only `' '`). -/
def removeSpaces (s : String) : String :=
  ⟨s.data.filter (fun c => c ≠ ' ')⟩

/-- `os.path.basename`: the part of the path after the last `/`. -/
def basenameOf (path : String) : String :=
  ⟨(path.data.reverse.takeWhile (fun c => c ≠ '/')).reverse⟩

/-! ## Regex scanners

Each definition implements exactly one of the regular expressions used by
the repository, with Python `re` semantics (leftmost match, greedy
quantifiers with backtracking) specialised to that pattern. -/

/-- `re.sub(r'(?<=\d),(?=\d)', '', full_text)`: delete every comma whose
neighbours in the original string are both digits (thousands separators). -/
def removeThousandsChars (prev : Option Char) : List Char → List Char
  | [] => []
  | c :: rest =>
    let digitBefore := match prev with | some p => p.isDigit | none => false
    let digitAfter := match rest with | n :: _ => n.isDigit | [] => false
    if c = ',' && digitBefore && digitAfter then removeThousandsChars (some c) rest
    else c :: removeThousandsChars (some c) rest

/-- `re.sub(r'(?<=\d),(?=\d)', '', full_text)`. -/
def removeThousands (s : String) : String :=
  ⟨removeThousandsChars none s.data⟩

/-- `re.findall(r"\d+", text)` restricted to its first element: the first
maximal run of digits, if any. -/
def findFirstIntChars : List Char → Option String
  | [] => none
  | c :: rest =>
    if c.isDigit then some ⟨c :: rest.takeWhile Char.isDigit⟩
    else findFirstIntChars rest

/-- First `\d+` token of a string, if any. -/
def findFirstInt (s : String) : Option String :=
  findFirstIntChars s.data

/-- `re.match(r"^\d+\.\d+$", ln)`: the whole string is one or more digits,
a dot, one or more digits. -/
def isFloatLine (s : String) : Bool :=
  match s.data with
  | [] => false
  | c :: rest =>
    c.isDigit &&
      (match rest.dropWhile Char.isDigit with
       | '.' :: frac => !frac.isEmpty && frac.all Char.isDigit
       | _ => false)

/-- `re.match(r"^\d+$", s)`: the whole string is one or more digits. -/
def isIntLine (s : String) : Bool :=
  !s.data.isEmpty && s.data.all Char.isDigit

/-- `re.match(r"^\d+", s)` used as a condition: does the string start
with a digit? -/
def startsWithDigit (s : String) : Bool :=
  match s.data with
  | [] => false
  | c :: _ => c.isDigit

/-- Try to take exactly `n` digits from the front. -/
def takeExactDigits : Nat → List Char → Option (List Char × List Char)
  | 0, cs => some ([], cs)
  | n + 1, c :: rest =>
    if c.isDigit then
      match takeExactDigits n rest with
      | some (ds, after) => some (c :: ds, after)
      | none => none
    else none
  | _ + 1, [] => none

/-- One backtracking attempt of `\d{1,2}/\d{1,2}/\d{y}` at the start of
`cs`, taking `k1`, `k2` and `y` digits for the three groups; returns the
matched characters and the remainder. -/
def dateCombo (k1 k2 y : Nat) (cs : List Char) : Option (List Char × List Char) := do
  let (d1, r1) ← takeExactDigits k1 cs
  match r1 with
  | '/' :: r2 => do
    let (d2, r3) ← takeExactDigits k2 r2
    match r3 with
    | '/' :: r4 => do
      let (d3, r5) ← takeExactDigits y r4
      some (d1 ++ '/' :: d2 ++ '/' :: d3, r5)
    | _ => none
  | _ => none

/-- All greedy backtracking attempts of `\d{1,2}/\d{1,2}/\d{m..n}` at the
start of `cs` (year lengths tried longest first, as `re` does). -/
def dateMatchAt (yearOpts : List Nat) (cs : List Char) : Option (List Char × List Char) :=
  go [(2, 2), (2, 1), (1, 2), (1, 1)]
where
  go : List (Nat × Nat) → Option (List Char × List Char)
    | [] => none
    | (k1, k2) :: ks =>
      match goY (k1, k2) yearOpts with
      | some r => some r
      | none => go ks
  goY : Nat × Nat → List Nat → Option (List Char × List Char)
    | _, [] => none
    | (k1, k2), y :: ys =>
      match dateCombo k1 k2 y cs with
      | some r => some r
      | none => goY (k1, k2) ys

/-- `re.match(r"\d{1,2}/\d{1,2}/\d{4}", s)` used as a Boolean: does a
date match at the start of the string? -/
def matchDate4AtStart (s : String) : Bool :=
  (dateMatchAt [4] s.data).isSome

/-- `re.match(r"^\d{1,2}/\d{1,2}/\d{2,4}", s)` used as a Boolean. -/
def matchDate24AtStart (s : String) : Bool :=
  (dateMatchAt [4, 3, 2] s.data).isSome

/-- `re.search(r"\d{1,2}/\d{1,2}/\d{4}", s)`: text of the leftmost
match, if any. -/
def searchDate4Chars : List Char → Option String
  | [] => none
  | c :: rest =>
    match dateMatchAt [4] (c :: rest) with
    | some (m, _) => some ⟨m⟩
    | none => searchDate4Chars rest

/-- `re.search(r"\d{1,2}/\d{1,2}/\d{4}", s)`. -/
def searchDate4 (s : String) : Option String :=
  searchDate4Chars s.data

/-- One attempt of `\b\d{1,2}/\d{1,2}/\d{4}\b` at the current position:
the position's previous character must not be a word character and the
character following the matched year must not be one either.  All four
backtracking combinations are tried in greedy order. -/
def dateMatchAtWB (cs : List Char) : Option (List Char) :=
  go [(2, 2), (2, 1), (1, 2), (1, 1)]
where
  go : List (Nat × Nat) → Option (List Char)
    | [] => none
    | (k1, k2) :: ks =>
      match dateCombo k1 k2 4 cs with
      | some (m, after) =>
        match after with
        | [] => some m
        | a :: _ => if isWordChar a then go ks else some m
      | none => go ks

/-- `re.search(r"\b\d{1,2}/\d{1,2}/\d{4}\b", s)`: text of the leftmost
match, if any. -/
def searchDate4WBChars (prev : Option Char) : List Char → Option String
  | [] => none
  | c :: rest =>
    let boundary := match prev with | some p => !isWordChar p | none => true
    if boundary then
      match dateMatchAtWB (c :: rest) with
      | some m => some ⟨m⟩
      | none => searchDate4WBChars (some c) rest
    else searchDate4WBChars (some c) rest

/-- `re.search(r"\b\d{1,2}/\d{1,2}/\d{4}\b", s)`. -/
def searchDate4WB (s : String) : Option String :=
  searchDate4WBChars none s.data

/-- `re.findall(r"\d+\.\d+", s)`: the leftmost non-overlapping greedy
matches of the float pattern.  A match starts at the head of a maximal
digit run followed by `.` and a digit; a failed digit run cannot host a
later match start, so scanning resumes after it, as `re` effectively
does. -/
def findFloatsChars (cs : List Char) : List String :=
  match cs with
  | [] => []
  | c :: rest =>
    if c.isDigit then
      match h : rest.dropWhile Char.isDigit with
      | '.' :: d2 :: rest2 =>
        if d2.isDigit then
          (⟨(c :: rest.takeWhile Char.isDigit) ++ '.' :: d2 :: rest2.takeWhile Char.isDigit⟩ : String)
            :: findFloatsChars (rest2.dropWhile Char.isDigit)
        else findFloatsChars (d2 :: rest2)
      | other => findFloatsChars other
    else findFloatsChars rest
termination_by cs.length
decreasing_by
  · have h1 : (rest.dropWhile Char.isDigit).length ≤ rest.length :=
      (List.dropWhile_sublist (l := rest) Char.isDigit).length_le
    have h2 : (rest2.dropWhile Char.isDigit).length ≤ rest2.length :=
      (List.dropWhile_sublist (l := rest2) Char.isDigit).length_le
    rw [h] at h1
    simp only [List.length_cons] at *
    omega
  · have h1 : (rest.dropWhile Char.isDigit).length ≤ rest.length :=
      (List.dropWhile_sublist (l := rest) Char.isDigit).length_le
    rw [h] at h1
    simp only [List.length_cons] at *
    omega
  · have h1 : (rest.dropWhile Char.isDigit).length ≤ rest.length :=
      (List.dropWhile_sublist (l := rest) Char.isDigit).length_le
    rw [h] at h1
    simp only [List.length_cons] at *
    omega
  · simp only [List.length_cons]
    omega

/-- `re.findall(r"\d+\.\d+", s)`. -/
def findFloats (s : String) : List String :=
  findFloatsChars s.data

/-- `re.search(r"\d+\.\d+", s)` used as a Boolean: is there a digit
immediately followed by `.` and a digit? (equivalent to the existence of
a `\d+\.\d+` match). -/
def hasFloatPattern : List Char → Bool
  | [] => false
  | c :: rest =>
    (c.isDigit &&
      (match rest with
       | '.' :: d :: _ => d.isDigit
       | _ => false)) ||
    hasFloatPattern rest

/-- `re.search(r"\d+\.\d+", s)` as a Boolean. -/
def containsFloatPattern (s : String) : Bool :=
  hasFloatPattern s.data

/-- Character match for a literal, optionally case-insensitive. -/
def charMatches (ci : Bool) (pat c : Char) : Bool :=
  if ci then c.toLower = pat.toLower else c = pat

/-- Literal-string match at the start of a character list, optionally
case-insensitive. -/
def litPrefixAt (ci : Bool) : List Char → List Char → Bool
  | [], _ => true
  | _ :: _, [] => false
  | p :: ps, c :: cs => charMatches ci p c && litPrefixAt ci ps cs

/-- Attempt `PO\d+\b` at the current position (after the `\b` left
boundary has been checked): `P`, `O`, one or more digits, and the first
character after the greedy digit run must not be a word character.
Returns the matched text (in its original case). -/
def tryPONumAt (ci : Bool) : List Char → Option String
  | p :: o :: rest =>
    if charMatches ci 'P' p && charMatches ci 'O' o then
      let ds := rest.takeWhile Char.isDigit
      if ds.isEmpty then none
      else
        match rest.dropWhile Char.isDigit with
        | [] => some ⟨p :: o :: ds⟩
        | a :: _ => if isWordChar a then none else some ⟨p :: o :: ds⟩
    else none
  | _ => none

/-- `re.search(r"\bPO\d+\b", full_text)` (case-insensitively when `ci`):
the leftmost match. -/
def searchPONumChars (ci : Bool) (prev : Option Char) : List Char → Option String
  | [] => none
  | c :: rest =>
    let boundary := match prev with | some p => !isWordChar p | none => true
    if boundary then
      match tryPONumAt ci (c :: rest) with
      | some m => some m
      | none => searchPONumChars ci (some c) rest
    else searchPONumChars ci (some c) rest

/-- `re.search(r"\bPO\d+\b", full_text)`. -/
def searchPONum (ci : Bool) (s : String) : Option String :=
  searchPONumChars ci none s.data

/-- Count the leading characters satisfying `p`. -/
def countWhile (p : Char → Bool) (cs : List Char) : Nat :=
  (cs.takeWhile p).length

/-- The character class of the `Your Reference` capture group:
`[\w\-\/]` in `helpers.py`, `[\w\-\./]` (with dot) in
`helpers/extractor.py`. -/
def refClassChar (withDot : Bool) (c : Char) : Bool :=
  isWordChar c || c = '-' || c = '/' || (withDot && c = '.')

/-- `re.search(r"Your Reference\s+([\w\-\/]*)", text)` — or the
`IGNORECASE`, with-dot variant — returning `group(1)`.  At each
occurrence of the literal, `\s+` requires at least one whitespace
character; the group then takes the maximal class run (possibly
empty). -/
def searchYourReferenceChars (ci withDot : Bool) : List Char → Option String
  | [] => none
  | c :: rest =>
    if litPrefixAt ci "Your Reference".data (c :: rest) then
      let after := (c :: rest).drop 14
      let wsLen := countWhile pyIsSpace after
      if wsLen > 0 then
        some ⟨(after.drop wsLen).takeWhile (refClassChar withDot)⟩
      else searchYourReferenceChars ci withDot rest
    else searchYourReferenceChars ci withDot rest

/-- `re.search(r"Your Reference\s+([\w\-\/]*)", text)` (and variants). -/
def searchYourReference (ci withDot : Bool) (s : String) : Option String :=
  searchYourReferenceChars ci withDot s.data

/-- `\s*(.+)` after an occurrence of `Payment Term:`: skip the maximal
whitespace run, then `.+` takes everything up to the next newline; if
the rest of the text is all whitespace the greedy `\s*` backtracks to
the last non-newline whitespace character; if there is none, the match
attempt fails. -/
def paymentTermCapture (after : List Char) : Option String :=
  let k := countWhile pyIsSpace after
  if k < after.length then
    some ⟨(after.drop k).takeWhile (fun c => c ≠ '\n')⟩
  else
    match (after.take k).reverse.dropWhile (fun c => c = '\n') with
    | [] => none
    | c :: _ => some ⟨[c]⟩

/-- `re.search(r"Payment Term:\s*(.+)", text)` (case-insensitively when
`ci`), returning `group(1)`. -/
def searchPaymentTermChars (ci : Bool) : List Char → Option String
  | [] => none
  | c :: rest =>
    if litPrefixAt ci "Payment Term:".data (c :: rest) then
      match paymentTermCapture ((c :: rest).drop 13) with
      | some g => some g
      | none => searchPaymentTermChars ci rest
    else searchPaymentTermChars ci rest

/-- `re.search(r"Payment Term:\s*(.+)", text)`. -/
def searchPaymentTerm (ci : Bool) (s : String) : Option String :=
  searchPaymentTermChars ci s.data

/-- Attempt `Net\s*\d+` at the current position (`IGNORECASE`): `Net`,
any whitespace, at least one digit; returns the matched text. -/
def tryNetAt : List Char → Option String
  | n :: e :: t :: rest =>
    if charMatches true 'N' n && charMatches true 'e' e && charMatches true 't' t then
      let ws := rest.takeWhile pyIsSpace
      let afterWs := rest.dropWhile pyIsSpace
      let ds := afterWs.takeWhile Char.isDigit
      if ds.isEmpty then none
      else some ⟨n :: e :: t :: (ws ++ ds)⟩
    else none
  | _ => none

/-- `re.search(r"(Net\s*\d+)", line, re.IGNORECASE)`: the leftmost match
together with its start index (`net_match.start()`), used for
`line[:net_match.start()]`. -/
def searchNetChars (idx : Nat) : List Char → Option (String × Nat)
  | [] => none
  | c :: rest =>
    match tryNetAt (c :: rest) with
    | some m => some (m, idx)
    | none => searchNetChars (idx + 1) rest

/-- `re.search(r"(Net\s*\d+)", line, re.IGNORECASE)` with start index. -/
def searchNet (s : String) : Option (String × Nat) :=
  searchNetChars 0 s.data

/-- `re.search(r"(Net\s*\d+)", s, re.IGNORECASE)` as a Boolean. -/
def containsNet (s : String) : Bool :=
  (searchNet s).isSome

/-- `re.search(r'\bEach\b', middle, re.IGNORECASE)`: an occurrence of
the word `Each` delimited by word boundaries, any case. -/
def searchEachWordChars (prev : Option Char) : List Char → Bool
  | [] => false
  | c :: rest =>
    let boundary := match prev with | some p => !isWordChar p | none => true
    (boundary && litPrefixAt true "Each".data (c :: rest) &&
      (match (c :: rest).drop 4 with
       | [] => true
       | a :: _ => !isWordChar a)) ||
    searchEachWordChars (some c) rest

/-- `re.search(r'\bEach\b', s, re.IGNORECASE)` as a Boolean. -/
def containsEachWord (s : String) : Bool :=
  searchEachWordChars none s.data

/-- `re.match(r"^(Rev|REV)\s+\w+", ln)` as a Boolean: the line starts
with `Rev` or `REV`, then at least one whitespace character, then at
least one word character. -/
def matchesRev (s : String) : Bool :=
  match s.data with
  | r :: e :: v :: rest =>
    (r = 'R' && ((e = 'e' && v = 'v') || (e = 'E' && v = 'V'))) &&
      (let wsLen := countWhile pyIsSpace rest
       wsLen > 0 &&
         (match rest.drop wsLen with
          | a :: _ => isWordChar a
          | [] => false))
  | _ => false

/-- `re.match(r"^(\d+)\s+(\w+)?", l)` for the Westell quantity/UoM line:
leading digits, at least one whitespace character, then an optional word
run.  Returns `(group(1), group(2) or "")`. -/
def matchQtyUom (s : String) : Option (String × String) :=
  match s.data with
  | c :: rest =>
    if c.isDigit then
      let ds := c :: rest.takeWhile Char.isDigit
      let afterDs := rest.dropWhile Char.isDigit
      let wsLen := countWhile pyIsSpace afterDs
      if wsLen > 0 then
        some (⟨ds⟩, ⟨(afterDs.drop wsLen).takeWhile isWordChar⟩)
      else none
    else none
  | [] => none

/-! ## Exact decimal arithmetic

Strings matched by `^\d+\.\d+$` are interpreted exactly as rationals;
Python's `round(x, 4)` is round-half-to-even at four decimals. -/

/-- Numeric value of a digit list. -/
def digitsToNat (ds : List Char) : Nat :=
  ds.foldl (fun acc c => 10 * acc + (c.toNat - '0'.toNat)) 0

/-- Kernel-computable product of a rational and a natural number
(avoids the `irreducible` field operations of `ℚ`). -/
def qscale (q : ℚ) (n : Nat) : ℚ :=
  mkRat (q.num * n) q.den

/-- Kernel-computable difference `q - z` for an integer `z`. -/
def qsubInt (q : ℚ) (z : ℤ) : ℚ :=
  mkRat (q.num - z * q.den) q.den

/-- Kernel-computable rational division; equal to `(· / ·)`
(`qdiv_eq_div`). -/
def qdiv (a b : ℚ) : ℚ :=
  if 0 ≤ b.num then mkRat (a.num * b.den) (a.den * b.num.natAbs)
  else mkRat (-(a.num * b.den)) (a.den * b.num.natAbs)

/-- Exact value of a decimal literal matched by `^\d+\.\d+$`
(idealising Python's `float()` as exact). -/
def floatLineVal (s : String) : ℚ :=
  let intPart := s.data.takeWhile Char.isDigit
  match s.data.dropWhile Char.isDigit with
  | '.' :: frac =>
    let fr := frac.takeWhile Char.isDigit
    mkRat (digitsToNat intPart * 10 ^ fr.length + digitsToNat fr) (10 ^ fr.length)
  | _ => mkRat (digitsToNat intPart) 1

/-- Round half to even to the nearest integer (Python's `round`
semantics, idealised to exact rationals). -/
def roundHalfEven (q : ℚ) : ℤ :=
  let f : ℤ := q.floor
  let r : ℚ := qsubInt q f
  if r < mkRat 1 2 then f
  else if mkRat 1 2 < r then f + 1
  else if f % 2 = 0 then f else f + 1

/-- `round(q, 4)` (Python, idealised): scaled round half to even. -/
def pyRound4 (q : ℚ) : ℚ :=
  mkRat (roundHalfEven (qscale q 10000)) 10000

/-- Digits of a natural number (model of Python `str(n)`). -/
def natDigits (n : Nat) : String :=
  ⟨(Nat.toDigits 10 n)⟩

/-- Python `str(x)` for a non-negative float holding a value with at
most four decimal places: integer part, a dot, and the fractional
digits with trailing zeros removed (at least one digit, so `2.0`). -/
def renderFloat4 (q : ℚ) : String :=
  let n : Nat := (qscale q 10000).num.toNat
  let intPart := n / 10000
  let frac := n % 10000
  let fracDigits := natDigits frac
  let pad := ⟨List.replicate (4 - fracDigits.data.length) '0'⟩ ++ fracDigits
  let trimmed : List Char := (pad.data.reverse.dropWhile (fun c => c = '0')).reverse
  natDigits intPart ++ "." ++ (if trimmed.isEmpty then "0" else ⟨trimmed⟩)

/-! ## Python `float()` string acceptor (for `helpers.py` `parse_block`'s
`try: float(line_strip)`) -/

/-- Consume the rest of a digit group `\d(_?\d)*` (underscores allowed
between digits, as Python numeric literals accept). -/
def chompDigitTail : List Char → List Char
  | [] => []
  | c :: rest =>
    if c.isDigit then chompDigitTail rest
    else if c = '_' then
      match rest with
      | d :: rest2 => if d.isDigit then chompDigitTail rest2 else c :: rest
      | [] => c :: rest
  else c :: rest

/-- Consume a digit group (at least one digit). -/
def chompDigits : List Char → Option (List Char)
  | c :: rest => if c.isDigit then some (chompDigitTail rest) else none
  | [] => none

/-- Consume the mantissa of a Python float literal:
`digits [. [digits]]` or `. digits`. -/
def chompMantissa (cs : List Char) : Option (List Char) :=
  match chompDigits cs with
  | some rest =>
    match rest with
    | '.' :: rest2 =>
      match chompDigits rest2 with
      | some rest3 => some rest3
      | none => some rest2
    | _ => some rest
  | none =>
    match cs with
    | '.' :: rest2 => chompDigits rest2
    | _ => none

/-- Consume an optional exponent `[eE][+-]?digits`. -/
def chompExponent : List Char → Option (List Char)
  | [] => some []
  | c :: rest =>
    if c = 'e' || c = 'E' then
      let rest' := match rest with
        | s :: rest2 => if s = '+' || s = '-' then rest2 else rest
        | [] => rest
      chompDigits rest'
    else some (c :: rest)

/-- Does Python's `float(s)` succeed on `s`? (ASCII model: optional
whitespace and sign, `inf`/`infinity`/`nan` in any case, or a decimal
literal with optional fraction and exponent.) -/
def pyFloatAccepts (s : String) : Bool :=
  let cs := (pyStrip s).data
  let cs := match cs with
    | c :: rest => if c = '+' || c = '-' then rest else c :: rest
    | [] => []
  let low := cs.map Char.toLower
  if low = "inf".data || low = "infinity".data || low = "nan".data then true
  else
    match chompMantissa cs with
    | some rest =>
      match chompExponent rest with
      | some [] => true
      | _ => false
    | none => false

/-! ## PDF inputs

PyMuPDF (`fitz`) is an external library.  Every extractor builds
`full_text` by concatenating the sorted text blocks of all pages and
wraps the whole body in `try/except`; we model the outcome of that text
assembly as either the assembled text or a raised exception message. -/

/-- Outcome of opening a PDF and assembling its ordered block text. -/
inductive PdfRead where
  | ok (text : String)
  | exn (msg : String)
deriving DecidableEq, Repr

/-- A PDF file given to an extractor: its path and its read outcome. -/
structure PdfFile where
  path : String
  read : PdfRead
deriving DecidableEq, Repr

/-- Join a list of strings with single spaces (`" ".join(...)`). -/
def joinSp : List String → String
  | [] => ""
  | [w] => w
  | w :: ws => w ++ " " ++ joinSp ws

namespace Extractor

/-! ### `helpers/extractor.py` -/

/-- The descending repeated-prefix/suffix scan of `clean_description`
(`helpers/extractor.py` lines 24–30): word counts `len(words)//2` down
to 1, first length whose prefix and suffix agree case-insensitively and
whose middle contains the word `Each` or a decimal number. -/
def cleanDescLoop (words : List String) : Nat → Option Nat
  | 0 => none
  | l + 1 =>
    let startSub := joinSp (words.take (l + 1))
    let endSub := joinSp (words.drop (words.length - (l + 1)))
    if pyLower startSub = pyLower endSub &&
        (let middle := joinSp ((words.drop (l + 1)).take (words.length - 2 * (l + 1)))
         containsEachWord middle || containsFloatPattern middle) then
      some (l + 1)
    else cleanDescLoop words l

/-- `clean_description(desc)` (`helpers/extractor.py` lines 13–31).
The `Option` input models a possibly-`None` argument, handled by
`(desc or "")`. -/
def clean_description (desc : Option String) : String :=
  let d := pyStrip (desc.getD "")
  if d = "" then ""
  else
    let words := pySplitWs d
    match cleanDescLoop words (words.length / 2) with
    | some l =>
      let s := joinSp (words.take l)
      let e := joinSp (words.drop (words.length - l))
      pyStrip (if e.data.length > s.data.length then e else s)
    | none => d

/-- First line starting with `Delivery Date:` that has a successor;
returns the stripped successor (`parse_block`, extractor version,
lines 190–193). -/
def deliveryDateAfter : List String → Option String
  | [] => none
  | [_] => none
  | l :: next :: rest =>
    if pyStartsWith l "Delivery Date:" then some (pyStrip next)
    else deliveryDateAfter (next :: rest)

/-- First line starting with `Item Code:` that has a successor; returns
the stripped successor and its index (`item_code_index`). -/
def itemCodeSearch (idx : Nat) : List String → Option (String × Nat)
  | [] => none
  | [_] => none
  | l :: next :: rest =>
    if pyStartsWith l "Item Code:" then some (pyStrip next, idx + 1)
    else itemCodeSearch (idx + 1) (next :: rest)

/-- First line matching `^(Rev|REV)\s+\w+` with its index. -/
def revSearch (idx : Nat) : List String → Option (String × Nat)
  | [] => none
  | l :: rest => if matchesRev l then some (l, idx) else revSearch (idx + 1) rest

/-- Nearest index `j < ici` (scanning downwards) whose stripped line is
all digits (`^\d+$`). -/
def lastIntIdxBefore (ls : List String) : Nat → Option Nat
  | 0 => none
  | j + 1 =>
    if (match ls.get? j with
        | some s => isIntLine (pyStrip s)
        | none => false) then some j
    else lastIntIdxBefore ls j

/-- `float_lines`: lines fully matching `^\d+\.\d+$` and different from
the string `"0.0000"`. -/
def floatLinesOf (ls : List String) : List String :=
  ls.filter (fun ln => isFloatLine ln && ln ≠ "0.0000")

/-- Python `max(float_lines, key=lambda x: float(x))`: the first element
of greatest numeric value. -/
def maxByFloatVal : List String → String
  | [] => ""
  | h :: t => t.foldl (fun m x => if floatLineVal x > floatLineVal m then x else m) h

/-- `data["Price"]`: the first float line. -/
def priceOf (ls : List String) : String :=
  (floatLinesOf ls).headD ""

/-- `data["Total"]`: the float line of maximal numeric value.  (The
`try/except` around `max` in the source is unreachable: `float()` cannot
raise on a `^\d+\.\d+$` string.) -/
def totalOf (ls : List String) : String :=
  maxByFloatVal (floatLinesOf ls)

/-- `data["Quantity"]`: `str(round(float(total)/float(price), 4))`, or
`""` when the division raises (price numerically zero). -/
def quantityOf (ls : List String) : String :=
  let p := priceOf ls
  let t := totalOf ls
  if p ≠ "" && t ≠ "" then
    if floatLineVal p = 0 then ""
    else renderFloat4 (pyRound4 (qdiv (floatLineVal t) (floatLineVal p)))
  else ""

/-- `data["Description"]` of the extractor `parse_block` (lines
235–254): the slice between the `Rev` line (or the nearest integer-only
line before the item code, or the start) and the item-code line,
cleaned. -/
def descriptionOf (block_lines : List String) : String :=
  match itemCodeSearch 0 block_lines with
  | none => ""
  | some (_, ici) =>
    let descLines :=
      match revSearch 0 block_lines with
      | some (_, ri) => (block_lines.drop (ri + 1)).take (ici - (ri + 1))
      | none =>
        match lastIntIdxBefore block_lines ici with
        | some j => (block_lines.drop (j + 1)).take (ici - (j + 1))
        | none => block_lines.take ici
    let kept := descLines.filter (fun l => !pyStartsWith (pyStrip l) "Item Code:" && pyStrip l ≠ "")
    clean_description (some (pyStrip (joinSp kept)))

/-- `parse_block(block_lines)` (`helpers/extractor.py` lines 174–256):
the row dictionary for one item block, with the dictionary's literal key
order. -/
def parse_block (block_lines : List String) : List (String × String) :=
  [("Item_Code", (itemCodeSearch 0 block_lines).map Prod.fst |>.getD ""),
   ("Delivery Date", (deliveryDateAfter block_lines).getD ""),
   ("Description", descriptionOf block_lines),
   ("Item Details", (revSearch 0 block_lines).map Prod.fst |>.getD ""),
   ("UoM(optional)", if block_lines.contains "Each" then "Each" else ""),
   ("Quantity", quantityOf block_lines),
   ("Price", priceOf block_lines),
   ("Total", totalOf block_lines)]

/-- Result of `extract_item_blocks_ILM`: a list of row dictionaries, or
the `{"error": ...}` dictionary. -/
inductive ILMResult where
  | rows (rs : List (List (String × String)))
  | error (msg : String)
deriving DecidableEq, Repr

/-- State of the line scan of `extract_item_blocks_ILM`
(`helpers/extractor.py` lines 102–160). -/
structure ILMScanState where
  inside : Bool
  blocks : List (List (String × String))
  current : List String
  waiting : Bool
  prev : String
  found : Bool
deriving Repr

/-- Initial scan state. -/
def ilmInit : ILMScanState :=
  { inside := false, blocks := [], current := [], waiting := false, prev := "", found := false }

/-- One iteration of the `for line in lines` loop of
`extract_item_blocks_ILM`. -/
def ilmStep (st : ILMScanState) (line : String) : ILMScanState :=
  let ls := pyStrip line
  if !st.inside then
    if removeSpaces (st.prev ++ ls) = "Tax%Tax%" then
      { st with inside := true, prev := "", found := true }
    else
      { st with prev := ls }
  else if pyStartsWith ls "▌Tax Details" then
    { st with inside := false }
  else
    let st := { st with current := st.current ++ [ls] }
    if pyStartsWith ls "Delivery Date:" then
      { st with waiting := true }
    else if st.waiting then
      if matchDate4AtStart ls then
        let cur := st.current ++ [ls]
        if cur.any (fun l => strContains (pyLower l) "page") then
          { st with current := [], waiting := false, inside := false, prev := "" }
        else
          { st with blocks := st.blocks ++ [parse_block cur], current := [], waiting := false }
      else st
    else st

/-- `extract_item_blocks_ILM(pdf_path)` (`helpers/extractor.py` lines
80–168). -/
def extract_item_blocks_ILM (f : PdfFile) : ILMResult :=
  match f.read with
  | .exn msg => .error msg
  | .ok fullText =>
    let text := removeThousands fullText
    let lines := pySplitLines text
    let final := lines.foldl ilmStep ilmInit
    if !final.found then
      .error ("❌ '" ++ basenameOf f.path ++ "' cannot convert to CSV, maybe format mismatch.")
    else
      .rows final.blocks

/-- `extract_po_info_ILM(pdf_path)` (`helpers/extractor.py` lines
36–76): the header dictionary, or `{"error": str(e)}` when the PDF read
raises. -/
def extract_po_info_ILM (f : PdfFile) : List (String × String) :=
  match f.read with
  | .exn msg => [("error", msg)]
  | .ok fullText =>
    let documentNumber := (searchPONum true fullText).getD ""
    let reference :=
      match searchYourReference true true fullText with
      | some g => let r := pyStrip g; if pyLower r = "your" then "" else r
      | none => ""
    let paymentTerm := ((searchPaymentTerm true fullText).map pyStrip).getD ""
    let documentDate := (searchDate4WB fullText).getD ""
    [("Document Number", documentNumber),
     ("Reference", reference),
     ("Payment Term", paymentTerm),
     ("Document Date", documentDate)]

end Extractor

namespace Helpers

/-! ### `helpers.py` -/

/-- First line whose stripped form starts with `Delivery Date:` and has
a successor; returns the stripped successor (`helpers.py` lines
122–125). -/
def deliveryDateAfter : List String → Option String
  | [] => none
  | [_] => none
  | l :: next :: rest =>
    if pyStartsWith (pyStrip l) "Delivery Date:" then some (pyStrip next)
    else deliveryDateAfter (next :: rest)

/-- First line whose stripped form starts with `Item Code:` and has a
successor; returns the stripped successor. -/
def itemCodeAfter : List String → Option String
  | [] => none
  | [_] => none
  | l :: next :: rest =>
    if pyStartsWith (pyStrip l) "Item Code:" then some (pyStrip next)
    else itemCodeAfter (next :: rest)

/-- The ignore patterns of the description candidates
(`helpers.py` line 154), each applied with `re.match`. -/
def matchesIgnore (ls : String) : Bool :=
  isFloatLine ls || ls = "Each" || pyStartsWith ls "Delivery Date:" || pyStartsWith ls "Item Code:"

/-- The lines that occur after an earlier equal line (one output entry
per repeated occurrence), `helpers.py` lines 159–165. -/
def dupsOf : List String → List String :=
  go []
where
  go (seen : List String) : List String → List String
    | [] => []
    | x :: t => if seen.contains x then x :: go seen t else go (x :: seen) t

/-- The `Item Details` search of `helpers.py` lines 169–182: the first
stripped line that is none of the known fields, no marker line, not a
repeated description line, and not parseable by `float()`. -/
def itemDetailsSearch (price total quantity delivery itemCode : String)
    (dups : List String) : List String → String
  | [] => ""
  | l :: t =>
    let ls := pyStrip l
    if [price, total, quantity, delivery, "Each", itemCode].contains ls then
      itemDetailsSearch price total quantity delivery itemCode dups t
    else if pyStartsWith ls "Delivery Date:" || pyStartsWith ls "Item Code:" then
      itemDetailsSearch price total quantity delivery itemCode dups t
    else if dups.contains ls then
      itemDetailsSearch price total quantity delivery itemCode dups t
    else if pyFloatAccepts ls then
      itemDetailsSearch price total quantity delivery itemCode dups t
    else ls

/-- `parse_block(block_lines)` (`helpers.py` lines 109–184). -/
def parse_block (block_lines : List String) : List (String × String) :=
  let stripped := block_lines.map pyStrip
  let delivery := (deliveryDateAfter block_lines).getD ""
  let itemCode := (itemCodeAfter block_lines).getD ""
  let price := Extractor.priceOf stripped
  let total := Extractor.totalOf stripped
  let quantity := Extractor.quantityOf stripped
  let uom := if stripped.contains "Each" then "Each" else ""
  let candidates := stripped.filter
    (fun ls => !matchesIgnore ls && !([price, total, delivery, itemCode].contains ls))
  let dups := dupsOf candidates
  let description := pyStrip (joinSp dups)
  let itemDetails := itemDetailsSearch price total quantity delivery itemCode dups block_lines
  [("Item_Code", itemCode),
   ("Delivery Date", delivery),
   ("Description", description),
   ("Item Details", itemDetails),
   ("UoM(optional)", uom),
   ("Quantity", quantity),
   ("Price", price),
   ("Total", total)]

/-- State of the line scan of `extract_item_blocks` (`helpers.py` lines
60–99); unlike the extractor version it stops at the stop marker
(`break`) and collects raw lines. -/
structure HScanState where
  inside : Bool
  blocks : List (List (String × String))
  current : List String
  waiting : Bool
  prev : String
  found : Bool
  stopped : Bool
deriving Repr

/-- Initial scan state of `extract_item_blocks`. -/
def hInit : HScanState :=
  { inside := false, blocks := [], current := [], waiting := false, prev := "",
    found := false, stopped := false }

/-- One iteration of the `for line in lines` loop of
`extract_item_blocks`. -/
def hStep (st : HScanState) (line : String) : HScanState :=
  if st.stopped then st
  else
    let ls := pyStrip line
    if !st.inside then
      if removeSpaces (st.prev ++ ls) = "Tax%Tax%" then
        { st with inside := true, prev := "", found := true }
      else
        { st with prev := ls }
    else if pyStartsWith ls "▌Tax Details" then
      { st with stopped := true }
    else
      let st := { st with current := st.current ++ [line] }
      if pyStartsWith ls "Delivery Date:" then
        { st with waiting := true }
      else if st.waiting then
        if matchDate4AtStart ls then
          let cur := st.current ++ [ls]
          { st with blocks := st.blocks ++ [parse_block cur], current := [], waiting := false }
        else st
      else st

/-- `extract_item_blocks(pdf_path)` (`helpers.py` lines 43–106). -/
def extract_item_blocks (f : PdfFile) : Extractor.ILMResult :=
  match f.read with
  | .exn msg => .error msg
  | .ok fullText =>
    let text := removeThousands fullText
    let lines := pySplitLines text
    let final := lines.foldl hStep hInit
    if !final.found then
      .error ("❌ '" ++ basenameOf f.path ++ "' cannot convert to CSV, maybe format mismatch.")
    else
      .rows final.blocks

/-- `extract_po_info(pdf_path)` (`helpers.py` lines 10–40): the header
dictionary (case-sensitive regexes, no date field), or
`{"error": str(e)}`. -/
def extract_po_info (f : PdfFile) : List (String × String) :=
  match f.read with
  | .exn msg => [("error", msg)]
  | .ok fullText =>
    let documentNumber := (searchPONum false fullText).getD ""
    let reference :=
      match searchYourReference false false fullText with
      | some g => let r := pyStrip g; if pyLower r = "your" then "" else r
      | none => ""
    let paymentTerm := ((searchPaymentTerm false fullText).map pyStrip).getD ""
    [("Document Number", documentNumber),
     ("Reference", reference),
     ("Payment Term", paymentTerm)]

end Helpers

namespace Extractor

/-! ### `extract_po_info_Westl` (`helpers/extractor.py` lines 262–471) -/

/-- One output row of the Westell extractor (the dictionary of line
450–466, with its fixed keys as fields). -/
structure WestlRow where
  documentNumber : String
  partDescription : String
  itemCode : String
  poIssueDate : String
  deliveryDate : String
  shipVia : String
  fob : String
  uom : String
  quantity : String
  price : String
  total : String
  paymentTerm : String
  buyer : String
  reqNum : String
  requisitioner : String
deriving DecidableEq, Repr, Inhabited

/-- The header loop (lines 292–308): first date seen becomes
`po_issue_date`; the first line with a `Net\s*\d+` match fixes
`payment_term`, `fob` (the stripped prefix before the match) and
`ship_via` (the previous line, if it is neither a date, a number run,
nor a `Net` term), and breaks. -/
def headerScan (prev : Option String) (poDate : String) :
    List String → (String × String × String × String)
  | [] => (poDate, "", "", "")
  | l :: t =>
    let poDate' := if poDate = "" then ((searchDate4 l).getD "") else poDate
    match searchNet l with
    | some (g, st) =>
      let fob := pyStrip ⟨l.data.take st⟩
      let ship :=
        match prev with
        | some u0 =>
          let u := pyStrip u0
          if !matchDate24AtStart u && !startsWithDigit u && !containsNet u then u else ""
        | none => ""
      (poDate', g, ship, fob)
    | none => headerScan (some l) poDate' t

/-- The buyer/REQ#/requisitioner loop (lines 313–344): at the first line
equal to `ITEM` (upper-cased), classify the one, two and three lines
above it. -/
def buyerScan (p3 p2 p1 : Option String) : List String → (String × String × String)
  | [] => ("", "", "")
  | l :: t =>
    if pyUpper (pyStrip l) = "ITEM" then
      let c1 := (p1.map pyStrip).getD ""
      let requisitioner :=
        if c1 ≠ "" && !matchDate24AtStart c1 && !isIntLine c1 && !containsNet c1 then c1 else ""
      let c2 := (p2.map pyStrip).getD ""
      let reqNum := if isIntLine c2 then c2 else ""
      let cb :=
        if requisitioner = "" && reqNum = "" then c1
        else if requisitioner = "" then c2
        else (p3.map pyStrip).getD ""
      let buyer := if isIntLine cb then cb else ""
      (buyer, reqNum, requisitioner)
    else buyerScan p2 p1 (some l) t

/-- The line-item block loop (lines 349–376): the section starts after a
`Unit Cost` line followed by `Extended Cost`; a line of digits starts a
new block; `TOTAL` flushes the current block and breaks; a dangling
block at the end of input is dropped, as in the source. -/
def blocksScan (inSection skipHeader : Bool) (current : List String)
    (blocks : List (List String)) : List String → List (List String)
  | [] => blocks
  | l :: t =>
    if !inSection then
      if (match t.head? with | some nl => nl = "Extended Cost" | none => false)
          && l = "Unit Cost" then
        blocksScan true true current blocks t
      else blocksScan false skipHeader current blocks t
    else if skipHeader && l = "Extended Cost" then
      blocksScan true false current blocks t
    else if pyUpper (pyStrip l) = "TOTAL" then
      blocks ++ (if current.isEmpty then [] else [current])
    else if isIntLine l then
      if !current.isEmpty then blocksScan true skipHeader [l] (blocks ++ [current]) t
      else blocksScan true skipHeader [l] blocks t
    else blocksScan true skipHeader (current ++ [l]) blocks t

/-- The quantity/UoM search inside one block (lines 396–405): first
unused line matching `^(\d+)\s+(\w+)?`, its index, and the updated
used-line set. -/
def qtyScan (used : List String) (i : Nat) :
    List String → (String × String × Option Nat × List String)
  | [] => ("", "", none, used)
  | l :: t =>
    if used.contains l then qtyScan used (i + 1) t
    else
      match matchQtyUom l with
      | some (q, u) => (q, u, some i, used ++ [l])
      | none => qtyScan used (i + 1) t

/-- The delivery-date search inside one block (lines 422–430). -/
def dateScan (used : List String) : List String → (String × List String)
  | [] => ("", used)
  | l :: t =>
    if used.contains l then dateScan used t
    else
      match searchDate4 l with
      | some d => (d, used ++ [l])
      | none => dateScan used t

/-- The `USD` line search inside one block (lines 433–440). -/
def usdScan (used : List String) (i : Nat) : List String → (Option Nat × List String)
  | [] => (none, used)
  | l :: t =>
    if used.contains l then usdScan used (i + 1) t
    else if strContains (pyUpper l) "USD" then (some i, used ++ [l])
    else usdScan used (i + 1) t

/-- Build the row dictionary for one block (lines 385–467). -/
def rowOfBlock (documentNumber poIssueDate shipVia fob paymentTerm buyer reqNum
    requisitioner : String) (blk : List String) : WestlRow :=
  let cleanBlk := blk.map (fun l => (⟨l.data.filter (fun c => c ≠ ',')⟩ : String))
  let itemCode := cleanBlk.headD ""
  let used0 : List String := [itemCode]
  let qr := qtyScan used0 0 cleanBlk
  let qty := qr.1
  let uom := qr.2.1
  let qtyIdx := qr.2.2.1
  let used1 := qr.2.2.2
  let preDesc :=
    match qtyIdx with
    | some qi =>
      if qi > 1 then
        let between := (cleanBlk.drop 1).take (qi - 1)
        if between.isEmpty then "" else pyStrip (joinSp between)
      else ""
    | none => ""
  let floats := (cleanBlk.filter (fun l => !used1.contains l)).foldl
    (fun acc l => acc ++ findFloats l) []
  let price := floats.headD ""
  let total := floats.getLastD ""
  let dr := dateScan used1 cleanBlk
  let delivery := dr.1
  let used2 := dr.2
  let usdIdx := (usdScan used2 0 cleanBlk).1
  let desc0 :=
    match usdIdx with
    | some i =>
      if i + 1 < cleanBlk.length then pyStrip (joinSp (cleanBlk.drop (i + 1))) else ""
    | none => pyStrip (joinSp (cleanBlk.drop 1))
  let desc := if preDesc ≠ "" then pyStrip (preDesc ++ " " ++ desc0) else desc0
  { documentNumber := documentNumber,
    partDescription := desc,
    itemCode := itemCode,
    poIssueDate := poIssueDate,
    deliveryDate := delivery,
    shipVia := shipVia,
    fob := fob,
    uom := uom,
    quantity := qty,
    price := price,
    total := total,
    paymentTerm := paymentTerm,
    buyer := buyer,
    reqNum := reqNum,
    requisitioner := requisitioner }

/-- The value `f"PO{first_int}" if first_int else ""` (lines 282–286). -/
def westlDocNumber (fullText : String) : String :=
  match findFirstInt fullText with
  | some t => "PO" ++ t
  | none => ""

/-- Return value and console output of `extract_po_info_Westl`: the
accumulated `rows` and the messages written with `print` (which go to
the server console, not to the user). -/
structure WestlOut where
  rows : List WestlRow
  printed : List String
deriving DecidableEq, Repr

/-- `extract_po_info_Westl(pdf_path)` (`helpers/extractor.py` lines
262–471).  On an exception the `except` block prints the error and the
function returns the rows accumulated so far (none). -/
def extract_po_info_Westl (f : PdfFile) : WestlOut :=
  match f.read with
  | .exn msg => { rows := [], printed := ["❌ Error in " ++ f.path ++ ": " ++ msg] }
  | .ok fullText =>
    let lines := ((pySplitLines fullText).map pyStrip).filter (fun l => l ≠ "")
    let documentNumber := westlDocNumber fullText
    let hdr := headerScan none "" lines
    let poIssueDate := hdr.1
    let paymentTerm := hdr.2.1
    let shipVia := hdr.2.2.1
    let fob := hdr.2.2.2
    let bqr := buyerScan none none none lines
    let buyer := bqr.1
    let reqNum := bqr.2.1
    let requisitioner := bqr.2.2
    let blocks := blocksScan false false [] [] lines
    if blocks.isEmpty then
      { rows := [],
        printed := ["⚠️ No rows can be extracted from '" ++ basenameOf f.path ++ "' – no blocks found."] }
    else
      { rows := blocks.map (rowOfBlock documentNumber poIssueDate shipVia fob paymentTerm
          buyer reqNum requisitioner),
        printed := [] }

end Extractor

/-! ## Page pipelines (`pages/1_ILM.py`, `pages/2_Westell.py`) -/

/-- An uploaded file on a parser page: a single PDF, or a ZIP whose
members are the `.pdf` files it contributes after extraction (the walk
filter of `2_Westell.py` line 97–102 / the namelist filter of
`1_ILM.py` lines 28–34 applied). -/
inductive Upload where
  | pdf (f : PdfFile)
  | zip (name : String) (members : List PdfFile)
deriving DecidableEq, Repr

/-- The PDF files processed by a page for a list of uploads. -/
def uploadPdfs (uploads : List Upload) : List PdfFile :=
  uploads.foldl
    (fun acc u => match u with
      | .pdf f => acc ++ [f]
      | .zip _ ms => acc ++ ms) []

/-- A file-system side effect performed by a page while processing
uploads. -/
inductive FsEffect where
  | mkdtemp
  | mkdirPdfFolder
  | writeUploaded (name : String)
  | extractZip (name : String)
  | unlink (name : String)
  | writeCsv (path : String)
deriving DecidableEq, Repr

/-- Generic stable insertion into a `le`-sorted list. -/
def insertSorted {α : Type} (le : α → α → Bool) (x : α) : List α → List α
  | [] => [x]
  | y :: t => if le y x then y :: insertSorted le x t else x :: y :: t

/-- Sort with respect to `le` (stable; models the row ordering produced
by `DataFrame.sort_values`, whose tie order the claims do not rely
on). -/
def stableSortBy {α : Type} (le : α → α → Bool) (l : List α) : List α :=
  l.foldl (fun acc x => insertSorted le x acc) []

/-- `DataFrame.drop_duplicates()` on a list of rows: keep the first
occurrence of each row. -/
def dedupKeepFirst : List Extractor.WestlRow → List Extractor.WestlRow :=
  go []
where
  go (seen : List Extractor.WestlRow) : List Extractor.WestlRow → List Extractor.WestlRow
    | [] => []
    | x :: t => if seen.contains x then go seen t else x :: go (seen ++ [x]) t

/-- Row comparison used by `df.sort_values(by="Document Number")`. -/
def docNumLe (a b : Extractor.WestlRow) : Bool :=
  decide (a.documentNumber ≤ b.documentNumber)

/-- The file-system effects of writing one upload into the PDF folder
(`pages/2_Westell.py` lines 88–95): plain files are written; ZIPs are
written, extracted and unlinked. -/
def uploadEffects : Upload → List FsEffect
  | .pdf f => [FsEffect.writeUploaded (basenameOf f.path)]
  | .zip n _ => [FsEffect.writeUploaded n, FsEffect.extractZip n, FsEffect.unlink n]

namespace Westell

/-- The `all_rows` accumulation of `process_files`
(`pages/2_Westell.py` lines 104–106). -/
def allRows (uploads : List Upload) : List Extractor.WestlRow :=
  (uploadPdfs uploads).foldl (fun acc f => acc ++ (Extractor.extract_po_info_Westl f).rows) []

/-- The DataFrame returned by `process_files` (lines 109–128), as its
list of rows: build from `all_rows`, drop exact duplicate rows, sort by
`Document Number`; empty input gives an empty frame. -/
def process_files_rows (uploads : List Upload) : List Extractor.WestlRow :=
  let rows := allRows uploads
  if rows.isEmpty then []
  else stableSortBy docNumLe (dedupKeepFirst rows)

/-- The file-system effects of `process_files` (lines 84–123): create a
temp directory and `pdf_folder`, write every uploaded file there
(extracting and unlinking ZIPs), and — whenever `all_rows` is non-empty
— write `po_extracted.csv` into the current working directory. -/
def process_files_effects (uploads : List Upload) : List FsEffect :=
  [FsEffect.mkdtemp, FsEffect.mkdirPdfFolder] ++
  uploads.foldl (fun acc u => acc ++ uploadEffects u) [] ++
  (if (allRows uploads).isEmpty then [] else [FsEffect.writeCsv "po_extracted.csv"])

end Westell

/-- Python's first-wins dictionary update `{**a, **b}`: `a`'s keys in
order (with `b`'s value when a key is shared), then `b`'s new keys. -/
def dictMerge (a b : List (String × String)) : List (String × String) :=
  a.map (fun kv => (kv.1, ((b.lookup kv.1).getD kv.2))) ++
    b.filter (fun kv => !(a.map Prod.fst).contains kv.1)

namespace ILMPage

/-- The per-PDF row building of `pages/1_ILM.py` lines 41–55: combine
the header dict with each item dict, or emit a single
`{**po_info, "error": ...}` row. -/
def rowsOfPdf (f : PdfFile) : List (List (String × String)) :=
  let po := Helpers.extract_po_info f
  match Helpers.extract_item_blocks f with
  | .rows items => items.map (fun item => dictMerge po item)
  | .error e => [dictMerge po [("error", e)]]

/-- `all_data` of the ILM page (lines 40–55). -/
def all_data (uploads : List Upload) : List (List (String × String)) :=
  (uploadPdfs uploads).foldl (fun acc f => acc ++ rowsOfPdf f) []

/-- The file-system effects of the ILM page's processing (lines 23–72):
the page reads uploads and ZIP members into `BytesIO` buffers and
serves the CSV from a `BytesIO` buffer, performing no file-system
operation, so the effect trace is empty. -/
def fsEffects (_uploads : List Upload) : List FsEffect :=
  []

end ILMPage

/-! ## Login gates (`app.py`, `pages/*.py`) -/

/-- The session state seen by a page: the value stored under
`"logged_in"`, or `none` when the key is absent. -/
structure SessionState where
  logged_in : Option Bool
deriving DecidableEq, Repr

/-- The gate condition `"logged_in" not in st.session_state or not
st.session_state["logged_in"]` — `true` when the page may continue past
the gate. -/
def gateAllows (s : SessionState) : Bool :=
  match s.logged_in with
  | none => false
  | some b => b

/-- Does `pages/1_ILM.py` reach its page content?  Lines 8–10 stop
execution unless the session is logged in. -/
def ilmPageRendersContent (s : SessionState) : Bool :=
  gateAllows s

/-- Does `pages/2_Westell.py` reach its page content?  Lines 11–13 stop
execution unless the session is logged in. -/
def westellPageRendersContent (s : SessionState) : Bool :=
  gateAllows s

/-- Does `pages/4_Bot.py` reach its page content?  Lines 19–21 stop
execution unless the session is logged in. -/
def botPageRendersContent (s : SessionState) : Bool :=
  gateAllows s

/-- Does `pages/3_Weight_Calc.py` reach its page content?  The module
has no login check: its title, uploader and processing run
unconditionally. -/
def weightCalcPageRendersContent (_s : SessionState) : Bool :=
  true

/-- Does `app.py` show only the welcome/login screen?  Lines 48–61 show
the login sidebar and welcome text exactly when the session is not
logged in. -/
def appShowsLoginScreen (s : SessionState) : Bool :=
  !gateAllows s

/-! ## `weight_calc.py` -/

namespace WeightCalc

/-- Outcome of reading a STEP file with the OCP library (an external
library): the solid volume (mm³) and bounding-box dimensions (mm), or a
raised exception message. -/
inductive StepRead where
  | ok (volMm3 x y z : ℚ)
  | exn (msg : String)
deriving DecidableEq, Repr

/-- `MATERIAL_DENSITIES` (`weight_calc.py` lines 84–95), g/cm³. -/
def MATERIAL_DENSITIES : List (String × ℚ) :=
  [("aluminum", 270/100),
   ("steel", 785/100),
   ("stainless_steel", 800/100),
   ("brass", 850/100),
   ("copper", 896/100),
   ("titanium", 451/100),
   ("cast_iron", 720/100),
   ("bronze", 880/100),
   ("zinc", 714/100),
   ("magnesium", 174/100)]

/-- The `material` argument of `process_step_file`: a material name or a
custom numeric density. -/
inductive Material where
  | name (s : String)
  | custom (density : ℚ)
deriving DecidableEq, Repr

/-- The density used by `process_step_file` (lines 123–126):
`MATERIAL_DENSITIES.get(material.lower(), MATERIAL_DENSITIES['steel'])`
for a string, the value itself otherwise. -/
def densityFor : Material → ℚ
  | .name s => (MATERIAL_DENSITIES.lookup (pyLower s)).getD (785/100)
  | .custom d => d

/-- One row of the result DataFrame of `process_step_file` (lines
135–144). -/
structure StepRow where
  x : ℚ
  y : ℚ
  z : ℚ
  bv5000 : ℚ
  sv : ℚ
  density : ℚ
  svWeightKg : ℚ
  maxInternalOrWeight : ℚ
deriving DecidableEq, Repr

/-- `process_step_file(step_file_path, material)` (`weight_calc.py`
lines 98–150): the one-row DataFrame, or `None` when reading raises
(the exception is shown with `st.error`).  Float arithmetic is
idealised as exact rational arithmetic. -/
def process_step_file (read : StepRead) (material : Material) : Option (List StepRow) :=
  match read with
  | .exn _ => none
  | .ok volMm3 x y z =>
    let svCm3 := volMm3 / 1000
    let bboxVolumeMm3 := x * y * z
    let bv5000 := bboxVolumeMm3 / 5000000
    let density := densityFor material
    let actualWeightKg := svCm3 * density / 1000
    let maxValue := max bv5000 actualWeightKg
    some [{ x := x, y := y, z := z, bv5000 := bv5000, sv := svCm3, density := density,
            svWeightKg := actualWeightKg, maxInternalOrWeight := maxValue }]

end WeightCalc

/-! ## `helpers/data_analysis.py` (`DataAnalyzer`)

`pandas`/`plotly` are external; a DataFrame is modelled by its row count
and columns with their dtype, raw values, numeric view and
`pd.to_datetime(..., errors='coerce')` view (a day number or `none` per
cell).  Charts are modelled by their titles. -/

namespace DataAnalysis

/-- A single-quote character, for response strings. -/
def sq : String :=
  ⟨[Char.ofNat 39]⟩

/-- One column of the uploaded CSV DataFrame. -/
structure DFColumn where
  name : String
  isNumeric : Bool
  strValues : List String
  numValues : List ℚ
  dateValues : List (Option Nat)

/-- The uploaded CSV DataFrame. -/
structure DataFrame where
  nrows : Nat
  cols : List DFColumn

/-- A Python value stored in a handler's result dictionary. -/
inductive RVal where
  | str (s : String)
  | natV (n : Nat)
  | ratV (q : ℚ)
  | nanV
  | boolV (b : Bool)
  | pynone
  | listV (l : List RVal)
  | dictV (d : List (String × RVal))
  | dateCountsV (d : List (Nat × Nat))
  | chartOf (title : String)

/-- `"\n".join(parts)`. -/
def joinNl : List String → String
  | [] => ""
  | [w] => w
  | w :: ws => w ++ "\n" ++ joinNl ws

/-- `", ".join(parts)`. -/
def joinComma : List String → String
  | [] => ""
  | [w] => w
  | w :: ws => w ++ ", " ++ joinComma ws

/-- Round half to even at `d` decimal places, scaled to an integer. -/
def roundAtScaled (d : Nat) (q : ℚ) : ℤ :=
  roundHalfEven (q * ((10 : ℚ) ^ d))

/-- Python's fixed format `f"{q:.d f}"` (idealised to exact rationals):
round half to even at `d` decimals and print with exactly `d`
fractional digits. -/
def fmtFixed (d : Nat) (q : ℚ) : String :=
  let n := roundAtScaled d q
  let sign := if n < 0 then "-" else ""
  let m := n.natAbs
  let ip := m / 10 ^ d
  let fp := m % 10 ^ d
  let fd := natDigits fp
  sign ++ natDigits ip ++
    (if d = 0 then "" else "." ++ (⟨List.replicate (d - fd.data.length) '0'⟩ : String) ++ fd)

/-- Insert thousands separators into a digit string. -/
def groupThousands (s : String) : String :=
  ⟨(go s.data.reverse).reverse⟩
where
  go : List Char → List Char
    | a :: b :: c :: d :: rest => a :: b :: c :: ',' :: go (d :: rest)
    | l => l

/-- Python's format `f"{q:,.2f}"`. -/
def fmtComma2 (q : ℚ) : String :=
  let n := roundAtScaled 2 q
  let sign := if n < 0 then "-" else ""
  let m := n.natAbs
  let ip := m / 100
  let fp := m % 100
  let fd := natDigits fp
  sign ++ groupThousands (natDigits ip) ++ "." ++
    (⟨List.replicate (2 - fd.data.length) '0'⟩ : String) ++ fd

/-- Distinct values in order of first occurrence. -/
def firstSeenDistinct {α : Type} [BEq α] : List α → List α :=
  go []
where
  go (seen : List α) : List α → List α
    | [] => []
    | x :: t => if seen.contains x then go seen t else x :: go (seen ++ [x]) t

/-- `Series.value_counts()`: value/count pairs, sorted by descending
count (ties in order of first occurrence). -/
def valueCounts (vs : List String) : List (String × Nat) :=
  stableSortBy (fun a b => decide (b.2 ≤ a.2))
    ((firstSeenDistinct vs).map (fun v => (v, vs.count v)))

/-- `any(word in query_lower for word in kws)`. -/
def kwAny (queryLower : String) (kws : List String) : Bool :=
  kws.any (fun w => strContains queryLower w)

/-- The numeric columns (`select_dtypes(include=[np.number])`). -/
def numericCols (df : DataFrame) : List DFColumn :=
  df.cols.filter (fun c => c.isNumeric)

/-- The object columns (`select_dtypes(include=['object'])`). -/
def categoricalCols (df : DataFrame) : List DFColumn :=
  df.cols.filter (fun c => !c.isNumeric)

/-- `df[col].mean()` rendered with `:.2f` (`"nan"` on an empty
column, as pandas' `NaN` formats). -/
def meanStr (vs : List ℚ) : String :=
  if vs.isEmpty then "nan" else fmtFixed 2 (vs.sum / (vs.length : ℚ))

/-- `df[col].mean()` as a stored value. -/
def meanVal (vs : List ℚ) : RVal :=
  if vs.isEmpty then RVal.nanV else RVal.ratV (vs.sum / (vs.length : ℚ))

/-- `_handle_count_query` (`helpers/data_analysis.py` lines 41–68). -/
def handleCountQuery (df : DataFrame) (query : String) : List (String × RVal) :=
  let total := df.nrows
  let fallBack : List (String × RVal) :=
    [("response", RVal.str ("📊 **Total Records**: " ++ natDigits total)),
     ("data", RVal.dictV [("total_records", RVal.natV total)]),
     ("chart", RVal.pynone),
     ("agent", RVal.str "DataAnalyst")]
  if strContains (pyLower query) "order" then
    match categoricalCols df with
    | col :: _ =>
      let counts := (valueCounts col.strValues).take 10
      [("response", RVal.str ("📊 **Total Orders**: " ++ natDigits total)),
       ("data", RVal.dictV (counts.map (fun vc => (vc.1, RVal.natV vc.2)))),
       ("chart", RVal.chartOf ("Count by " ++ col.name)),
       ("agent", RVal.str "DataAnalyst")]
    | [] => fallBack
  else fallBack

/-- `_handle_average_query` (lines 70–100). -/
def handleAverageQuery (df : DataFrame) (_query : String) : List (String × RVal) :=
  let ncols := numericCols df
  if ncols.isEmpty then
    [("response", RVal.str "❌ No numeric columns found for calculating averages."),
     ("data", RVal.pynone),
     ("chart", RVal.pynone),
     ("agent", RVal.str "DataAnalyst")]
  else
    let parts := "📊 **Average Values:**" ::
      ncols.map (fun c => "• " ++ c.name ++ ": " ++ meanStr c.numValues)
    [("response", RVal.str (joinNl parts)),
     ("data", RVal.dictV (ncols.map (fun c => (c.name, meanVal c.numValues)))),
     ("chart", RVal.chartOf "Average Values by Column"),
     ("agent", RVal.str "DataAnalyst")]

/-- `_handle_sum_query` (lines 102–127). -/
def handleSumQuery (df : DataFrame) (_query : String) : List (String × RVal) :=
  let ncols := numericCols df
  if ncols.isEmpty then
    [("response", RVal.str "❌ No numeric columns found for calculating sums."),
     ("data", RVal.pynone),
     ("chart", RVal.pynone),
     ("agent", RVal.str "DataAnalyst")]
  else
    let parts := "📊 **Total Values:**" ::
      ncols.map (fun c => "• " ++ c.name ++ ": " ++ fmtComma2 c.numValues.sum)
    [("response", RVal.str (joinNl parts)),
     ("data", RVal.dictV (ncols.map (fun c => (c.name, RVal.ratV c.numValues.sum)))),
     ("chart", RVal.pynone),
     ("agent", RVal.str "DataAnalyst")]

/-- `_handle_status_query` (lines 129–164). -/
def handleStatusQuery (df : DataFrame) (_query : String) : List (String × RVal) :=
  let statusCols := df.cols.filter
    (fun c => strContains (pyLower c.name) "status" || strContains (pyLower c.name) "state")
  let chosen :=
    match statusCols with
    | c :: _ => some c
    | [] =>
      match categoricalCols df with
      | c :: _ => some c
      | [] => none
  match chosen with
  | none =>
    [("response", RVal.str "❌ No status column found in the data."),
     ("data", RVal.pynone),
     ("chart", RVal.pynone),
     ("agent", RVal.str "DataAnalyst")]
  | some col =>
    let counts := valueCounts col.strValues
    let parts := ("📊 **" ++ col.name ++ " Breakdown:**") ::
      counts.map (fun vc =>
        "• " ++ vc.1 ++ ": " ++ natDigits vc.2 ++ " (" ++
          fmtFixed 1 ((vc.2 : ℚ) / (df.nrows : ℚ) * 100) ++ "%)")
    [("response", RVal.str (joinNl parts)),
     ("data", RVal.dictV (counts.map (fun vc => (vc.1, RVal.natV vc.2)))),
     ("chart", RVal.chartOf (col.name ++ " Distribution")),
     ("agent", RVal.str "DataAnalyst")]

/-- `_handle_customer_query` (lines 166–197). -/
def handleCustomerQuery (df : DataFrame) (_query : String) : List (String × RVal) :=
  let customerCols := df.cols.filter
    (fun c => kwAny (pyLower c.name) ["customer", "client", "name"])
  match customerCols with
  | [] =>
    [("response", RVal.str "❌ No customer column found in the data."),
     ("data", RVal.pynone),
     ("chart", RVal.pynone),
     ("agent", RVal.str "DataAnalyst")]
  | col :: _ =>
    let counts := (valueCounts col.strValues).take 10
    let parts := ("👥 **Top Customers (" ++ col.name ++ "):**") ::
      counts.map (fun vc => "• " ++ vc.1 ++ ": " ++ natDigits vc.2 ++ " orders")
    [("response", RVal.str (joinNl parts)),
     ("data", RVal.dictV (counts.map (fun vc => (vc.1, RVal.natV vc.2)))),
     ("chart", RVal.chartOf "Top Customers by Order Count"),
     ("agent", RVal.str "DataAnalyst")]

/-- `Series.groupby(date).size()` of the coerced date column: counts per
distinct day, keys ascending as `groupby` sorts them. -/
def dateCountsOf (dates : List (Option Nat)) : List (Nat × Nat) :=
  let valid := dates.foldr (fun d acc => match d with | some v => v :: acc | none => acc) []
  (stableSortBy (fun a b => decide (a ≤ b)) (firstSeenDistinct valid)).map
    (fun v => (v, valid.count v))

/-- `_handle_date_query` (lines 199–245).  The `except` branch is
unreachable in the model: with `errors='coerce'` the conversion does not
raise. -/
def handleDateQuery (df : DataFrame) (_query : String) : List (String × RVal) :=
  let dateCols := df.cols.filter
    (fun c => kwAny (pyLower c.name) ["date", "time", "created", "updated"])
  match dateCols with
  | [] =>
    [("response", RVal.str "❌ No date columns found in the data."),
     ("data", RVal.pynone),
     ("chart", RVal.pynone),
     ("agent", RVal.str "DataAnalyst")]
  | col :: _ =>
    let dcounts := dateCountsOf col.dateValues
    [("response", RVal.str ("📅 **Orders by Date (" ++ col.name ++ "):**\nShowing trend over "
        ++ natDigits dcounts.length ++ " days")),
     ("data", RVal.dateCountsV dcounts),
     ("chart", RVal.chartOf ("Orders Trend by " ++ col.name)),
     ("agent", RVal.str "DataAnalyst")]

/-- `_handle_general_query` (lines 265–297). -/
def handleGeneralQuery (df : DataFrame) (_query : String) : List (String × RVal) :=
  let ncols := (numericCols df).map (fun c => c.name)
  let ccols := (categoricalCols df).map (fun c => c.name)
  let parts : List String :=
    ["📊 **Data Overview:**",
     "• Total Records: " ++ natDigits df.nrows,
     "• Total Columns: " ++ natDigits df.cols.length,
     "• Numeric Columns: " ++ natDigits ncols.length,
     "• Text Columns: " ++ natDigits ccols.length,
     "",
     "🔍 **Column Names:** " ++ joinComma (df.cols.map (fun c => c.name)),
     "",
     "💡 **Try asking:**",
     "• " ++ sq ++ "How many orders are there?" ++ sq,
     "• " ++ sq ++ "What" ++ sq ++ "s the average order value?" ++ sq,
     "• " ++ sq ++ "Show me the status breakdown" ++ sq,
     "• " ++ sq ++ "Who are the top customers?" ++ sq,
     "• " ++ sq ++ "Show me sample data" ++ sq]
  [("response", RVal.str (joinNl parts)),
   ("data", RVal.dictV
     [("total_records", RVal.natV df.nrows),
      ("total_columns", RVal.natV df.cols.length),
      ("numeric_columns", RVal.listV (ncols.map RVal.str)),
      ("categorical_columns", RVal.listV (ccols.map RVal.str))]),
   ("chart", RVal.pynone),
   ("agent", RVal.str "DataAnalyst")]

/-- `df.head(k).to_dict('records')`. -/
def sampleRecords (df : DataFrame) (k : Nat) : RVal :=
  RVal.listV ((List.range k).map (fun i =>
    RVal.dictV (df.cols.map (fun c =>
      (c.name,
       if c.isNumeric then
         match c.numValues.get? i with
         | some q => RVal.ratV q
         | none => RVal.nanV
       else
         match c.strValues.get? i with
         | some s => RVal.str s
         | none => RVal.nanV)))))

/-- `_handle_display_query` (lines 247–263). -/
def handleDisplayQuery (df : DataFrame) (query : String) : List (String × RVal) :=
  if strContains (pyLower query) "sample" || strContains (pyLower query) "example" then
    let k := min 5 df.nrows
    [("response", RVal.str ("📋 **Sample Data (showing " ++ natDigits k ++ " of "
        ++ natDigits df.nrows ++ " records):**")),
     ("data", sampleRecords df k),
     ("chart", RVal.pynone),
     ("agent", RVal.str "DataAnalyst"),
     ("show_table", RVal.boolV true)]
  else handleGeneralQuery df query

/-- `DataAnalyzer.process_query` (`helpers/data_analysis.py` lines
11–39): keyword routing in the priority order of the `elif` chain. -/
def process_query (df : DataFrame) (query : String) : List (String × RVal) :=
  let ql := pyLower query
  if kwAny ql ["count", "how many", "total", "number"] then handleCountQuery df query
  else if kwAny ql ["average", "mean", "avg"] then handleAverageQuery df query
  else if kwAny ql ["sum", "total value", "total amount"] then handleSumQuery df query
  else if kwAny ql ["status", "pending", "completed", "cancelled", "shipped"] then
    handleStatusQuery df query
  else if kwAny ql ["customer", "client", "top customer"] then handleCustomerQuery df query
  else if kwAny ql ["date", "time", "when", "trend"] then handleDateQuery df query
  else if kwAny ql ["show", "display", "list", "view"] then handleDisplayQuery df query
  else handleGeneralQuery df query

end DataAnalysis

/-- The key list of a row dictionary. -/
def dictKeys (d : List (String × String)) : List String :=
  d.map Prod.fst

/-- The start-marker condition of the ILM item scans, as a predicate on
the line list: some line whose space-free concatenation with the
previous stripped line (initially `prev`) equals `Tax%Tax%`. -/
def hasStartMarker (prev : String) : List String → Bool
  | [] => false
  | l :: t =>
    let ls := pyStrip l
    removeSpaces (prev ++ ls) = "Tax%Tax%" || hasStartMarker ls t

/-- Claim C9's repeated-affix condition at word count `l`: a non-empty
prefix and suffix of `l` words that agree case-insensitively, with a
middle part containing the word `Each` or a decimal number.  (For
`l > len/2` the middle is empty, so the condition is automatically
false, matching the loop range of the source.) -/
def goodRepeatLen (words : List String) (l : Nat) : Bool :=
  1 ≤ l &&
  (pyLower (joinSp (words.take l)) = pyLower (joinSp (words.drop (words.length - l)))) &&
  (containsEachWord (joinSp ((words.drop l).take (words.length - 2 * l))) ||
   containsFloatPattern (joinSp ((words.drop l).take (words.length - 2 * l))))

/-- A handler result is well-formed: it delivers a `response` string
and the agent name `DataAnalyst`. -/
def respAgentOk (r : List (String × DataAnalysis.RVal)) : Prop :=
  r.lookup "agent" = some (DataAnalysis.RVal.str "DataAnalyst") ∧
  ∃ s, r.lookup "response" = some (DataAnalysis.RVal.str s)

/-- A small Westell-format PDF text that yields exactly one extracted
row (used by concrete witnesses). -/
def westellSamplePdf : PdfFile :=
  { path := "b.pdf", read := PdfRead.ok "77\nUnit Cost\nExtended Cost\n1\nTOTAL" }

/-! # Theorems -/

/-- `qdiv` is rational division. -/
theorem qdiv_eq_div (a b : ℚ) : qdiv a b = a / b := by
  by_cases hb : b = 0
  · subst hb
    simp [qdiv, Rat.mkRat_eq_divInt]
  · have hbnum : b.num ≠ 0 := Rat.num_ne_zero.mpr hb
    have hbnum2 : (b.num : ℚ) ≠ 0 := Int.cast_ne_zero.mpr hbnum
    have hbden : (b.den : ℚ) ≠ 0 := Nat.cast_ne_zero.mpr b.den_nz
    have haden : (a.den : ℚ) ≠ 0 := Nat.cast_ne_zero.mpr a.den_nz
    have ha := Rat.num_div_den a
    have hb2 := Rat.num_div_den b
    have haa : (a.num : ℚ) = a * a.den := (div_eq_iff haden).mp ha
    have hbb : (b.num : ℚ) = b * b.den := (div_eq_iff hbden).mp hb2
    unfold qdiv
    split_ifs with hs
    · rw [Rat.mkRat_eq_divInt, Rat.divInt_eq_div]
      push_cast
      rw [abs_of_nonneg (show (0:ℚ) ≤ (b.num : ℚ) by exact_mod_cast hs)]
      rw [div_eq_div_iff (mul_ne_zero haden hbnum2) hb]
      rw [haa, hbb]
      ring
    · have hneg : b.num < 0 := lt_of_not_ge hs
      rw [Rat.mkRat_eq_divInt, Rat.divInt_eq_div]
      push_cast
      rw [abs_of_neg (show (b.num : ℚ) < 0 by exact_mod_cast hneg)]
      rw [mul_neg, neg_div_neg_eq]
      rw [div_eq_div_iff (mul_ne_zero haden hbnum2) hb]
      rw [haa, hbb]
      ring

/-- The max-fold of `max(float_lines, key=float)` dominates its start
value. -/
theorem foldl_maxByFloat_ge (h : String) (t : List String) :
    floatLineVal h ≤
      floatLineVal (t.foldl (fun m x => if floatLineVal x > floatLineVal m then x else m) h) := by
  induction t generalizing h with
  | nil => exact le_refl _
  | cons x xs ih =>
    rw [List.foldl_cons]
    by_cases hc : floatLineVal x > floatLineVal h
    · rw [if_pos hc]
      exact le_trans (le_of_lt hc) (ih x)
    · rw [if_neg hc]
      exact ih h

/-- On a non-empty float-line list the first line's value is at most the
maximal value. -/
theorem priceVal_le_totalVal (ls : List String) (hne : Extractor.floatLinesOf ls ≠ []) :
    floatLineVal (Extractor.priceOf ls) ≤ floatLineVal (Extractor.totalOf ls) := by
  unfold Extractor.priceOf Extractor.totalOf Extractor.maxByFloatVal
  cases hf : Extractor.floatLinesOf ls with
  | nil => exact absurd hf hne
  | cons h t => simpa using foldl_maxByFloat_ge h t

/-- A non-empty `Price` means the float-line list is non-empty. -/
theorem floatLines_ne_of_price (ls : List String) (h : Extractor.priceOf ls ≠ "") :
    Extractor.floatLinesOf ls ≠ [] := by
  intro hc
  apply h
  unfold Extractor.priceOf
  rw [hc]
  rfl

/-- Core of claim C8, shared by both `parse_block` versions: on the
(possibly pre-stripped) line list, a non-empty price and total satisfy
`float(price) ≤ float(total)`, and the quantity is the rendered
`round(total/price, 4)` — empty when the price is numerically zero. -/
theorem price_total_quantity_core (ls : List String)
    (hp : Extractor.priceOf ls ≠ "") (_ht : Extractor.totalOf ls ≠ "") :
    floatLineVal (Extractor.priceOf ls) ≤ floatLineVal (Extractor.totalOf ls) ∧
    Extractor.quantityOf ls =
      (if floatLineVal (Extractor.priceOf ls) = 0 then ""
       else renderFloat4 (pyRound4
         (floatLineVal (Extractor.totalOf ls) / floatLineVal (Extractor.priceOf ls)))) := by
  refine ⟨priceVal_le_totalVal ls (floatLines_ne_of_price ls hp), ?_⟩
  unfold Extractor.quantityOf
  simp [hp, _ht]
  rw [qdiv_eq_div]


/-- C1 counterexample: in a session that is not logged in, the Weight
Calc page still renders its content — `pages/3_Weight_Calc.py` has no
login gate, so the claim that every page other than the welcome screen
is login-gated fails. -/
theorem claim_C1_counterexample :
    gateAllows { logged_in := some false } = false ∧
    weightCalcPageRendersContent { logged_in := some false } = true :=
  ⟨rfl, rfl⟩

/-- C1 (amended): for every session in which `logged_in` is absent or
`False`, the ILM, Westell and Bot pages stop before their content and
`app.py` shows only the welcome/login screen; the Weight Calc page has
no such gate. -/
theorem claim_C1_amended (s : SessionState) (h : gateAllows s = false) :
    ilmPageRendersContent s = false ∧
    westellPageRendersContent s = false ∧
    botPageRendersContent s = false ∧
    appShowsLoginScreen s = true := by
  refine ⟨h, h, h, ?_⟩
  simp [appShowsLoginScreen, h]

/-- C1 witness: the amended gate theorem at the session with no
`logged_in` key. -/
theorem claim_C1_witness :
    ilmPageRendersContent { logged_in := none } = false ∧
    westellPageRendersContent { logged_in := none } = false ∧
    botPageRendersContent { logged_in := none } = false ∧
    appShowsLoginScreen { logged_in := none } = true :=
  claim_C1_amended { logged_in := none } rfl

/-- C2 counterexample: when the PDF read inside `extract_po_info_Westl`
raises, the exception is caught, but the error text goes to the server
console (`print`) and the returned value — the row list the page
consumes — is empty and carries no error string.  The claim that every
extraction operation surfaces the error to the user as a string is
therefore false for `extract_po_info_Westl`. -/
theorem claim_C2_counterexample :
    Extractor.extract_po_info_Westl { path := "b.pdf", read := PdfRead.exn "boom" } =
      { rows := [], printed := ["❌ Error in b.pdf: boom"] } :=
  rfl

/-- C2 (amended): every extraction operation catches the exception and
returns normally; `extract_po_info`, `extract_item_blocks`,
`extract_po_info_ILM` and `extract_item_blocks_ILM` surface the message
to the user as the string of an `error` entry in the returned value,
while `extract_po_info_Westl` only prints `❌ Error in <path>: <msg>` to
the console and returns the rows accumulated so far (none). -/
theorem claim_C2_amended (path msg : String) :
    Helpers.extract_po_info { path := path, read := PdfRead.exn msg } = [("error", msg)] ∧
    Helpers.extract_item_blocks { path := path, read := PdfRead.exn msg } =
      Extractor.ILMResult.error msg ∧
    Extractor.extract_po_info_ILM { path := path, read := PdfRead.exn msg } = [("error", msg)] ∧
    Extractor.extract_item_blocks_ILM { path := path, read := PdfRead.exn msg } =
      Extractor.ILMResult.error msg ∧
    Extractor.extract_po_info_Westl { path := path, read := PdfRead.exn msg } =
      { rows := [], printed := ["❌ Error in " ++ path ++ ": " ++ msg] } :=
  ⟨rfl, rfl, rfl, rfl, rfl⟩

/-- Once the ILM scan has seen the start marker, it stays seen. -/
theorem ilmStep_found_mono (st : Extractor.ILMScanState) (l : String) (h : st.found = true) :
    (Extractor.ilmStep st l).found = true := by
  unfold Extractor.ilmStep
  simp only [apply_ite Extractor.ILMScanState.found]
  split_ifs <;> simp_all

/-- Found-ness is preserved by the whole fold. -/
theorem ilmFold_found_mono (lines : List String) (st : Extractor.ILMScanState)
    (h : st.found = true) : (lines.foldl Extractor.ilmStep st).found = true := by
  induction lines generalizing st with
  | nil => exact h
  | cons l t ih => exact ih _ (ilmStep_found_mono st l h)

/-- While scanning outside the table with the marker nowhere ahead, the
ILM scan never sets `start_marker_found`. -/
theorem ilmFold_no_marker (lines : List String) (st : Extractor.ILMScanState)
    (hin : st.inside = false) (hf : st.found = false)
    (hm : hasStartMarker st.prev lines = false) :
    (lines.foldl Extractor.ilmStep st).found = false := by
  induction lines generalizing st with
  | nil => simpa using hf
  | cons l t ih =>
    simp only [hasStartMarker, Bool.or_eq_false_iff, decide_eq_false_iff_not] at hm
    have hstep : Extractor.ilmStep st l = { st with prev := pyStrip l } := by
      simp [Extractor.ilmStep, hin, hm.1]
    rw [List.foldl_cons, hstep]
    exact ih _ hin hf hm.2

/-- If the marker occurs ahead while scanning outside the table, the
ILM scan sets `start_marker_found`. -/
theorem ilmFold_marker (lines : List String) (st : Extractor.ILMScanState)
    (hin : st.inside = false)
    (hm : hasStartMarker st.prev lines = true) :
    (lines.foldl Extractor.ilmStep st).found = true := by
  induction lines generalizing st with
  | nil => simp [hasStartMarker] at hm
  | cons l t ih =>
    by_cases hc : removeSpaces (st.prev ++ pyStrip l) = "Tax%Tax%"
    · have hstep : (Extractor.ilmStep st l).found = true := by
        simp [Extractor.ilmStep, hin, hc]
      exact ilmFold_found_mono t _ hstep
    · have hm' : hasStartMarker (pyStrip l) t = true := by
        simp only [hasStartMarker, Bool.or_eq_true, decide_eq_true_eq] at hm
        exact hm.resolve_left hc
      have hstep : Extractor.ilmStep st l = { st with prev := pyStrip l } := by
        simp [Extractor.ilmStep, hin, hc]
      rw [List.foldl_cons, hstep]
      exact ih _ hin hm'

/-- Once the helpers scan has seen the start marker, it stays seen. -/
theorem hStep_found_mono (st : Helpers.HScanState) (l : String) (h : st.found = true) :
    (Helpers.hStep st l).found = true := by
  unfold Helpers.hStep
  simp only [apply_ite Helpers.HScanState.found]
  split_ifs <;> simp_all

/-- Found-ness is preserved by the whole helpers fold. -/
theorem hFold_found_mono (lines : List String) (st : Helpers.HScanState)
    (h : st.found = true) : (lines.foldl Helpers.hStep st).found = true := by
  induction lines generalizing st with
  | nil => exact h
  | cons l t ih => exact ih _ (hStep_found_mono st l h)

/-- While scanning outside the table with the marker nowhere ahead, the
helpers scan never sets `start_marker_found`. -/
theorem hFold_no_marker (lines : List String) (st : Helpers.HScanState)
    (hin : st.inside = false) (hf : st.found = false) (hs : st.stopped = false)
    (hm : hasStartMarker st.prev lines = false) :
    (lines.foldl Helpers.hStep st).found = false := by
  induction lines generalizing st with
  | nil => simpa using hf
  | cons l t ih =>
    simp only [hasStartMarker, Bool.or_eq_false_iff, decide_eq_false_iff_not] at hm
    have hstep : Helpers.hStep st l = { st with prev := pyStrip l } := by
      simp [Helpers.hStep, hin, hs, hm.1]
    rw [List.foldl_cons, hstep]
    exact ih _ hin hf hs hm.2

/-- If the marker occurs ahead while scanning outside the table, the
helpers scan sets `start_marker_found`. -/
theorem hFold_marker (lines : List String) (st : Helpers.HScanState)
    (hin : st.inside = false) (hs : st.stopped = false)
    (hm : hasStartMarker st.prev lines = true) :
    (lines.foldl Helpers.hStep st).found = true := by
  induction lines generalizing st with
  | nil => simp [hasStartMarker] at hm
  | cons l t ih =>
    by_cases hc : removeSpaces (st.prev ++ pyStrip l) = "Tax%Tax%"
    · have hstep : (Helpers.hStep st l).found = true := by
        simp [Helpers.hStep, hin, hs, hc]
      exact hFold_found_mono t _ hstep
    · have hm' : hasStartMarker (pyStrip l) t = true := by
        simp only [hasStartMarker, Bool.or_eq_true, decide_eq_true_eq] at hm
        exact hm.resolve_left hc
      have hstep : Helpers.hStep st l = { st with prev := pyStrip l } := by
        simp [Helpers.hStep, hin, hs, hc]
      rw [List.foldl_cons, hstep]
      exact ih _ hin hs hm'

/-- C3: the ILM item extraction is layout-dependent.  When the combined
start marker `Tax%Tax%` never occurs over consecutive stripped lines of
the normalised text, both `extract_item_blocks_ILM` and
`extract_item_blocks` return the format-mismatch error dictionary
naming the file, not a row list; when the marker occurs, both return a
list of parsed item blocks. -/
theorem claim_C3_layout_dependent (f : PdfFile) (text : String)
    (hread : f.read = PdfRead.ok text) :
    (hasStartMarker "" (pySplitLines (removeThousands text)) = false →
      Extractor.extract_item_blocks_ILM f =
        Extractor.ILMResult.error
          ("❌ '" ++ basenameOf f.path ++ "' cannot convert to CSV, maybe format mismatch.") ∧
      Helpers.extract_item_blocks f =
        Extractor.ILMResult.error
          ("❌ '" ++ basenameOf f.path ++ "' cannot convert to CSV, maybe format mismatch.")) ∧
    (hasStartMarker "" (pySplitLines (removeThousands text)) = true →
      (∃ rs, Extractor.extract_item_blocks_ILM f = Extractor.ILMResult.rows rs) ∧
      (∃ rs, Helpers.extract_item_blocks f = Extractor.ILMResult.rows rs)) := by
  obtain ⟨path, read⟩ := f
  cases hread
  constructor
  · intro hm
    have h1 := ilmFold_no_marker (pySplitLines (removeThousands text)) Extractor.ilmInit
      rfl rfl hm
    have h2 := hFold_no_marker (pySplitLines (removeThousands text)) Helpers.hInit
      rfl rfl rfl hm
    constructor
    · simp [Extractor.extract_item_blocks_ILM, h1]
    · simp [Helpers.extract_item_blocks, h2]
  · intro hm
    have h1 := ilmFold_marker (pySplitLines (removeThousands text)) Extractor.ilmInit
      rfl hm
    have h2 := hFold_marker (pySplitLines (removeThousands text)) Helpers.hInit
      rfl rfl hm
    constructor
    · refine ⟨(List.foldl Extractor.ilmStep Extractor.ilmInit
        (pySplitLines (removeThousands text))).blocks, ?_⟩
      simp [Extractor.extract_item_blocks_ILM, h1]
    · refine ⟨(List.foldl Helpers.hStep Helpers.hInit
        (pySplitLines (removeThousands text))).blocks, ?_⟩
      simp [Helpers.extract_item_blocks, h2]

/-- C3 witness: a marker-less text yields the error dictionary, a text
containing the split marker yields a row list. -/
theorem claim_C3_witness :
    Extractor.extract_item_blocks_ILM { path := "a.pdf", read := PdfRead.ok "hello\nworld" } =
      Extractor.ILMResult.error "❌ 'a.pdf' cannot convert to CSV, maybe format mismatch." ∧
    (∃ rs, Extractor.extract_item_blocks_ILM
      { path := "a.pdf", read := PdfRead.ok "Tax %\nTax %" } = Extractor.ILMResult.rows rs) := by
  constructor
  · exact ((claim_C3_layout_dependent _ "hello\nworld" rfl).1 (by decide)).1
  · exact ((claim_C3_layout_dependent _ "Tax %\nTax %" rfl).2 (by decide)).1

/-- C4 counterexample: the row dictionary built by `parse_block` (both
versions) has no key `Item Code` — the column is named `Item_Code`,
with an underscore — so the claimed key set containing `"Item Code"` is
wrong. -/
theorem claim_C4_counterexample :
    (dictKeys (Extractor.parse_block [])).contains "Item Code" = false ∧
    (dictKeys (Helpers.parse_block [])).contains "Item Code" = false ∧
    (dictKeys (Extractor.parse_block [])).contains "Item_Code" = true := by
  decide

/-- C4 (amended): for every list of block lines, both `parse_block`
versions return a dictionary whose key list is exactly the fixed eight
column names `Item_Code` (underscore, not `Item Code`),
`Delivery Date`, `Description`, `Item Details`, `UoM(optional)`,
`Quantity`, `Price`, `Total`, each mapped to a string value. -/
theorem claim_C4_amended (block_lines : List String) :
    dictKeys (Extractor.parse_block block_lines) =
      ["Item_Code", "Delivery Date", "Description", "Item Details",
       "UoM(optional)", "Quantity", "Price", "Total"] ∧
    dictKeys (Helpers.parse_block block_lines) =
      ["Item_Code", "Delivery Date", "Description", "Item Details",
       "UoM(optional)", "Quantity", "Price", "Total"] :=
  ⟨rfl, rfl⟩

/-- Folding `acc ++ g x` over a list appends the per-element lists to
the initial accumulator. -/
theorem foldl_append_flatMap {α β : Type} (g : α → List β) :
    ∀ (l : List α) (init : List β),
      l.foldl (fun acc x => acc ++ g x) init = init ++ l.flatMap g
  | [], init => by simp
  | x :: t, init => by
    rw [List.foldl_cons, foldl_append_flatMap g t (init ++ g x)]
    simp [List.append_assoc]

/-- C5 counterexample: processing a single uploaded PDF on the Westell
page writes the uploaded file into the temporary directory and — the
extraction yielding a row — writes `po_extracted.csv` to the working
directory, so the claim that no file on disk is created or modified is
false. -/
theorem claim_C5_counterexample :
    FsEffect.writeUploaded "b.pdf" ∈ Westell.process_files_effects
      [Upload.pdf { path := "b.pdf", read := PdfRead.ok "77\nUnit Cost\nExtended Cost\n1\nTOTAL" }] ∧
    FsEffect.writeCsv "po_extracted.csv" ∈ Westell.process_files_effects
      [Upload.pdf { path := "b.pdf", read := PdfRead.ok "77\nUnit Cost\nExtended Cost\n1\nTOTAL" }] := by
  decide

/-- C5 (amended): the ILM page's processing performs no file-system
effect, but the Westell page's `process_files` writes every uploaded
file into its temporary directory and, whenever rows are extracted,
writes `po_extracted.csv` into the server's working directory. -/
theorem claim_C5_amended (uploads : List Upload) :
    ILMPage.fsEffects uploads = [] ∧
    (uploads ≠ [] → ∃ n, FsEffect.writeUploaded n ∈ Westell.process_files_effects uploads) ∧
    (Westell.allRows uploads ≠ [] →
      FsEffect.writeCsv "po_extracted.csv" ∈ Westell.process_files_effects uploads) := by
  refine ⟨rfl, ?_, ?_⟩
  · intro hne
    match uploads with
    | [] => exact absurd rfl hne
    | u :: us =>
      cases u with
      | pdf f =>
        refine ⟨basenameOf f.path, ?_⟩
        unfold Westell.process_files_effects
        rw [foldl_append_flatMap]
        simp [uploadEffects]
      | zip n ms =>
        refine ⟨n, ?_⟩
        unfold Westell.process_files_effects
        rw [foldl_append_flatMap]
        simp [uploadEffects]
  · intro hne
    cases h : Westell.allRows uploads with
    | nil => exact absurd h hne
    | cons a t =>
      unfold Westell.process_files_effects
      rw [h]
      simp

/-- C5 witness: the amended theorem at the single-PDF upload whose
extraction yields a row. -/
theorem claim_C5_witness :
    (∃ n, FsEffect.writeUploaded n ∈ Westell.process_files_effects
      [Upload.pdf { path := "b.pdf", read := PdfRead.ok "77\nUnit Cost\nExtended Cost\n1\nTOTAL" }]) ∧
    FsEffect.writeCsv "po_extracted.csv" ∈ Westell.process_files_effects
      [Upload.pdf { path := "b.pdf", read := PdfRead.ok "77\nUnit Cost\nExtended Cost\n1\nTOTAL" }] :=
  ⟨(claim_C5_amended _).2.1 (by decide),
   (claim_C5_amended _).2.2 (by decide)⟩

/-- The loop step of `clean_description`: at word count `n+1` the loop
returns `n+1` exactly when the repeated-affix condition holds there,
and otherwise continues downwards. -/
theorem cleanDescLoop_step (words : List String) (n : Nat) :
    Extractor.cleanDescLoop words (n + 1) =
      (if goodRepeatLen words (n + 1) = true then some (n + 1)
       else Extractor.cleanDescLoop words n) := by
  by_cases hA : pyLower (joinSp (words.take (n + 1))) =
      pyLower (joinSp (words.drop (words.length - (n + 1))))
  · by_cases hB : (containsEachWord (joinSp ((words.drop (n + 1)).take (words.length - 2 * (n + 1))))
        || containsFloatPattern (joinSp ((words.drop (n + 1)).take (words.length - 2 * (n + 1))))) = true
    · simp [Extractor.cleanDescLoop, goodRepeatLen, hA, hB]
    · simp [Extractor.cleanDescLoop, goodRepeatLen, hA, hB]
  · simp [Extractor.cleanDescLoop, goodRepeatLen, hA]

/-- The loop returns `none` exactly when no word count in range
satisfies the repeated-affix condition. -/
theorem cleanDescLoop_none_iff (words : List String) :
    ∀ n, Extractor.cleanDescLoop words n = none ↔
      ∀ l, 1 ≤ l → l ≤ n → goodRepeatLen words l = false
  | 0 => by
    constructor
    · intro _ l h1 h2
      omega
    · intro _
      rfl
  | n + 1 => by
    rw [cleanDescLoop_step]
    by_cases hg : goodRepeatLen words (n + 1) = true
    · rw [if_pos hg]
      constructor
      · intro h
        exact absurd h (by simp)
      · intro h
        exact absurd hg (by simp [h (n + 1) (by omega) (by omega)])
    · rw [if_neg hg]
      rw [cleanDescLoop_none_iff words n]
      constructor
      · intro h l h1 h2
        rcases Nat.lt_or_ge l (n + 1) with hlt | hge
        · exact h l h1 (by omega)
        · have : l = n + 1 := by omega
          subst this
          exact Bool.not_eq_true _ ▸ (by simpa using hg)
      · intro h l h1 h2
        exact h l h1 (by omega)

/-- What a `some` answer of the loop means: the returned word count
satisfies the condition and is the greatest such count in range. -/
theorem cleanDescLoop_some (words : List String) :
    ∀ n l, Extractor.cleanDescLoop words n = some l →
      goodRepeatLen words l = true ∧ 1 ≤ l ∧ l ≤ n ∧
      ∀ m, l < m → m ≤ n → goodRepeatLen words m = false
  | 0, l, h => by
    simp [Extractor.cleanDescLoop] at h
  | n + 1, l, h => by
    rw [cleanDescLoop_step] at h
    by_cases hg : goodRepeatLen words (n + 1) = true
    · rw [if_pos hg] at h
      obtain rfl := Option.some.inj h
      exact ⟨hg, by omega, le_refl _, fun m hm1 hm2 => by omega⟩
    · rw [if_neg hg] at h
      obtain ⟨h1, h2, h3, h4⟩ := cleanDescLoop_some words n l h
      refine ⟨h1, h2, by omega, ?_⟩
      intro m hm1 hm2
      rcases Nat.lt_or_ge m (n + 1) with hlt | hge
      · exact h4 m hm1 (by omega)
      · have : m = n + 1 := by omega
        subst this
        simpa using hg

/-- A good repeat length is positive. -/
theorem goodRepeatLen_pos (words : List String) (l : Nat)
    (h : goodRepeatLen words l = true) : 1 ≤ l := by
  unfold goodRepeatLen at h
  simp only [Bool.and_eq_true, decide_eq_true_eq] at h
  exact h.1.1

/-- A good repeat length leaves a non-trivial middle, so it is at most
half the word count. -/
theorem goodRepeatLen_le_half (words : List String) (l : Nat)
    (h : goodRepeatLen words l = true) : l ≤ words.length / 2 := by
  by_cases hl : l ≤ words.length / 2
  · exact hl
  · exfalso
    have h0 : words.length - 2 * l = 0 := by omega
    unfold goodRepeatLen at h
    rw [h0] at h
    simp [joinSp, containsEachWord, searchEachWordChars, containsFloatPattern,
      hasFloatPattern] at h

/-- Words produced by Python `str.split()` are non-empty and contain no
whitespace. -/
theorem pySplitWsChars_words (cs : List Char) :
    ∀ (acc : List Char), (∀ c ∈ acc, pyIsSpace c = false) →
      ∀ w ∈ pySplitWsChars cs acc, w.data ≠ [] ∧ ∀ c ∈ w.data, pyIsSpace c = false := by
  induction cs with
  | nil =>
    intro acc hacc w hw
    unfold pySplitWsChars at hw
    by_cases he : acc.isEmpty
    · rw [if_pos he] at hw
      simp at hw
    · rw [if_neg he] at hw
      rcases List.mem_singleton.mp hw with rfl
      refine ⟨by simpa [List.isEmpty_iff] using he, ?_⟩
      intro c hc
      exact hacc c (List.mem_reverse.mp hc)
  | cons c t ih =>
    intro acc hacc w hw
    unfold pySplitWsChars at hw
    by_cases hs : pyIsSpace c
    · rw [if_pos hs] at hw
      by_cases he : acc.isEmpty
      · rw [if_pos he] at hw
        exact ih [] (by simp) w hw
      · rw [if_neg he] at hw
        rcases List.mem_cons.mp hw with rfl | hw2
        · refine ⟨by simpa [List.isEmpty_iff] using he, ?_⟩
          intro d hd
          exact hacc d (List.mem_reverse.mp hd)
        · exact ih [] (by simp) w hw2
    · rw [if_neg hs] at hw
      refine ih (c :: acc) ?_ w hw
      intro d hd
      rcases List.mem_cons.mp hd with rfl | hd2
      · simpa using hs
      · exact hacc d hd2

/-- A string containing a non-whitespace character does not strip to
the empty string. -/
theorem pyStrip_ne_empty (s : String) (c : Char) (hc : c ∈ s.data)
    (hcs : pyIsSpace c = false) : pyStrip s ≠ "" := by
  intro h
  have hdata : (((s.data.dropWhile pyIsSpace).reverse.dropWhile pyIsSpace).reverse) = [] := by
    have := congrArg String.data h
    simpa [pyStrip] using this
  rw [List.reverse_eq_nil_iff] at hdata
  rw [List.dropWhile_eq_nil_iff] at hdata
  have hmem : ∀ x ∈ s.data.dropWhile pyIsSpace, pyIsSpace x = true := by
    intro x hx
    exact hdata x (List.mem_reverse.mpr hx)
  have : c ∈ s.data.takeWhile pyIsSpace ∨ c ∈ s.data.dropWhile pyIsSpace := by
    rw [← List.mem_append, List.takeWhile_append_dropWhile]
    exact hc
  rcases this with h1 | h2
  · exact absurd (List.mem_takeWhile_imp h1) (by simp [hcs])
  · exact absurd (hmem c h2) (by simp [hcs])

/-- The joined word list contains every character of its first word. -/
theorem joinSp_head_chars (w : String) (ws : List String) (c : Char) (hc : c ∈ w.data) :
    c ∈ (joinSp (w :: ws)).data := by
  cases ws with
  | nil => exact hc
  | cons w2 ws2 =>
    show c ∈ (w ++ " " ++ joinSp (w2 :: ws2)).data
    simp only [String.data_append]
    exact List.mem_append_left _ (List.mem_append_left _ hc)

/-- A non-empty sublist of split words joins and strips to a non-empty
string. -/
theorem joinSp_strip_ne_empty (d : String) (sub : List String)
    (hsub : ∀ w ∈ sub, w ∈ pySplitWs d) (hne : sub ≠ []) :
    pyStrip (joinSp sub) ≠ "" := by
  cases sub with
  | nil => exact absurd rfl hne
  | cons w ws =>
    have hw : w ∈ pySplitWs d := hsub w (List.mem_cons_self w ws)
    have hprops := pySplitWsChars_words d.data [] (by simp) w hw
    rcases hprops with ⟨hne2, hchars⟩
    cases hdata : w.data with
    | nil => exact absurd hdata hne2
    | cons c cs =>
      refine pyStrip_ne_empty _ c ?_ ?_
      · exact joinSp_head_chars w ws c (by rw [hdata]; exact List.mem_cons_self c cs)
      · exact hchars c (by rw [hdata]; exact List.mem_cons_self c cs)

/-- C9: `clean_description` returns the whitespace-trimmed input
unchanged unless some word count `l` gives a case-insensitively equal
prefix and suffix whose middle contains `Each` or a decimal number; for
the greatest such `l` it returns the longer of that prefix and suffix
(the prefix on ties, as Python's `max`); and it returns `""` exactly
when the input is `None`, empty or whitespace. -/
theorem claim_C9_clean_description (desc : Option String) (d : String)
    (hd : d = pyStrip (desc.getD "")) (words : List String) (hw : words = pySplitWs d) :
    (Extractor.clean_description desc = "" ↔ d = "") ∧
    (d ≠ "" →
      ((∀ l, goodRepeatLen words l = false) → Extractor.clean_description desc = d) ∧
      (∀ l, goodRepeatLen words l = true →
        (∀ m, l < m → m ≤ words.length / 2 → goodRepeatLen words m = false) →
        Extractor.clean_description desc =
          pyStrip (if (joinSp (words.drop (words.length - l))).data.length >
              (joinSp (words.take l)).data.length
            then joinSp (words.drop (words.length - l))
            else joinSp (words.take l)))) := by
  subst hd
  subst hw
  set d := pyStrip (desc.getD "") with hd
  set words := pySplitWs d with hw
  have hres_empty : d = "" → Extractor.clean_description desc = "" := by
    intro h
    unfold Extractor.clean_description
    rw [← hd, if_pos h]
  have hres_ne : d ≠ "" → Extractor.clean_description desc ≠ "" := by
    intro hne
    unfold Extractor.clean_description
    rw [← hd, if_neg hne, ← hw]
    cases hloop : Extractor.cleanDescLoop words (words.length / 2) with
    | none =>
      simp only [hloop]
      exact hne
    | some l =>
      obtain ⟨hg, hl1, _, _⟩ := cleanDescLoop_some words _ l hloop
      have hhalf := goodRepeatLen_le_half words l hg
      have hlen : 2 * l ≤ words.length := by omega
      simp only [hloop]
      by_cases hcmp : (joinSp (words.drop (words.length - l))).data.length >
          (joinSp (words.take l)).data.length
      · rw [if_pos hcmp]
        refine joinSp_strip_ne_empty d (words.drop (words.length - l)) ?_ ?_
        · intro w hwmem
          exact List.mem_of_mem_drop hwmem
        · intro hnil
          rw [List.drop_eq_nil_iff] at hnil
          omega
      · rw [if_neg hcmp]
        refine joinSp_strip_ne_empty d (words.take l) ?_ ?_
        · intro w hwmem
          exact List.mem_of_mem_take hwmem
        · intro hnil
          rw [List.take_eq_nil_iff] at hnil
          rcases hnil with h1 | h1
          · omega
          · have h0 : words.length = 0 := by simp [h1]
            omega
  refine ⟨⟨fun h => by_contra (fun hne => hres_ne hne h), hres_empty⟩, ?_⟩
  intro hne
  constructor
  · intro hall
    have hloop : Extractor.cleanDescLoop words (words.length / 2) = none :=
      (cleanDescLoop_none_iff words _).mpr (fun l _ _ => hall l)
    unfold Extractor.clean_description
    rw [← hd, if_neg hne, ← hw]
    simp only [hloop]
  · intro l hg hmax
    have hl1 := goodRepeatLen_pos words l hg
    have hhalf := goodRepeatLen_le_half words l hg
    have hloop : Extractor.cleanDescLoop words (words.length / 2) = some l := by
      cases hloop : Extractor.cleanDescLoop words (words.length / 2) with
      | none =>
        have := (cleanDescLoop_none_iff words _).mp hloop l hl1 hhalf
        rw [this] at hg
        exact absurd hg (by simp)
      | some l2 =>
        obtain ⟨hg2, hm1, hm2, hm4⟩ := cleanDescLoop_some words _ l2 hloop
        rcases lt_trichotomy l2 l with hlt | heq | hgt
        · have := hm4 l hlt hhalf
          rw [this] at hg
          exact absurd hg (by simp)
        · rw [heq]
        · have := hmax l2 hgt hm2
          rw [this] at hg2
          exact absurd hg2 (by simp)
    unfold Extractor.clean_description
    rw [← hd, if_neg hne, ← hw]
    simp only [hloop]

/-- C9 witness: whitespace input strips to the empty result; a
description with a case-insensitively repeated prefix/suffix around an
`Each`-and-price middle collapses to the repeated part. -/
theorem claim_C9_witness :
    (Extractor.clean_description (some "   ") = "" ↔ pyStrip ((some "   ").getD "") = "") ∧
    Extractor.clean_description (some "BRACKET ASSY Each 2.5000 bracket assy") =
      "BRACKET ASSY" := by
  constructor
  · exact (claim_C9_clean_description (some "   ") _ rfl _ rfl).1
  · have h := (claim_C9_clean_description
      (some "BRACKET ASSY Each 2.5000 bracket assy") _ rfl _ rfl).2
    have h2 := (h (by decide)).2 2 (by decide) (fun m hm1 hm2 => by
      have hm3 : m = 3 := by
        have : (pySplitWs (pyStrip ((some "BRACKET ASSY Each 2.5000 bracket assy").getD ""))).length / 2 = 3 := by decide
        omega
      subst hm3
      decide)
    exact h2.trans (by decide)

/-- `_handle_count_query` returns a response string and the agent name. -/
theorem handleCountQuery_wf (df : DataAnalysis.DataFrame) (q : String) :
    respAgentOk (DataAnalysis.handleCountQuery df q) := by
  unfold DataAnalysis.handleCountQuery respAgentOk
  by_cases h : strContains (pyLower q) "order"
  · rw [if_pos h]
    cases hc : DataAnalysis.categoricalCols df with
    | nil => simp only [hc]; exact ⟨rfl, _, rfl⟩
    | cons c cs => simp only [hc]; exact ⟨rfl, _, rfl⟩
  · rw [if_neg h]
    exact ⟨rfl, _, rfl⟩

/-- `_handle_average_query` returns a response string and the agent
name. -/
theorem handleAverageQuery_wf (df : DataAnalysis.DataFrame) (q : String) :
    respAgentOk (DataAnalysis.handleAverageQuery df q) := by
  unfold DataAnalysis.handleAverageQuery respAgentOk
  by_cases h : (DataAnalysis.numericCols df).isEmpty
  · rw [if_pos h]
    exact ⟨rfl, _, rfl⟩
  · rw [if_neg h]
    exact ⟨rfl, _, rfl⟩

/-- `_handle_sum_query` returns a response string and the agent name. -/
theorem handleSumQuery_wf (df : DataAnalysis.DataFrame) (q : String) :
    respAgentOk (DataAnalysis.handleSumQuery df q) := by
  unfold DataAnalysis.handleSumQuery respAgentOk
  by_cases h : (DataAnalysis.numericCols df).isEmpty
  · rw [if_pos h]
    exact ⟨rfl, _, rfl⟩
  · rw [if_neg h]
    exact ⟨rfl, _, rfl⟩

/-- `_handle_status_query` returns a response string and the agent
name. -/
theorem handleStatusQuery_wf (df : DataAnalysis.DataFrame) (q : String) :
    respAgentOk (DataAnalysis.handleStatusQuery df q) := by
  unfold DataAnalysis.handleStatusQuery respAgentOk
  cases hs : df.cols.filter
      (fun c => strContains (pyLower c.name) "status" || strContains (pyLower c.name) "state") with
  | cons c cs => simp only [hs]; exact ⟨rfl, _, rfl⟩
  | nil =>
    simp only [hs]
    cases hc : DataAnalysis.categoricalCols df with
    | nil => simp only [hc]; exact ⟨rfl, _, rfl⟩
    | cons c cs => simp only [hc]; exact ⟨rfl, _, rfl⟩

/-- `_handle_customer_query` returns a response string and the agent
name. -/
theorem handleCustomerQuery_wf (df : DataAnalysis.DataFrame) (q : String) :
    respAgentOk (DataAnalysis.handleCustomerQuery df q) := by
  unfold DataAnalysis.handleCustomerQuery respAgentOk
  cases hs : df.cols.filter
      (fun c => DataAnalysis.kwAny (pyLower c.name) ["customer", "client", "name"]) with
  | nil => simp only [hs]; exact ⟨rfl, _, rfl⟩
  | cons c cs => simp only [hs]; exact ⟨rfl, _, rfl⟩

/-- `_handle_date_query` returns a response string and the agent
name. -/
theorem handleDateQuery_wf (df : DataAnalysis.DataFrame) (q : String) :
    respAgentOk (DataAnalysis.handleDateQuery df q) := by
  unfold DataAnalysis.handleDateQuery respAgentOk
  cases hs : df.cols.filter
      (fun c => DataAnalysis.kwAny (pyLower c.name) ["date", "time", "created", "updated"]) with
  | nil => simp only [hs]; exact ⟨rfl, _, rfl⟩
  | cons c cs => simp only [hs]; exact ⟨rfl, _, rfl⟩

/-- `_handle_general_query` returns a response string and the agent
name. -/
theorem handleGeneralQuery_wf (df : DataAnalysis.DataFrame) (q : String) :
    respAgentOk (DataAnalysis.handleGeneralQuery df q) := by
  unfold DataAnalysis.handleGeneralQuery respAgentOk
  exact ⟨rfl, _, rfl⟩

/-- `_handle_display_query` returns a response string and the agent
name. -/
theorem handleDisplayQuery_wf (df : DataAnalysis.DataFrame) (q : String) :
    respAgentOk (DataAnalysis.handleDisplayQuery df q) := by
  unfold DataAnalysis.handleDisplayQuery
  by_cases h : (strContains (pyLower q) "sample" || strContains (pyLower q) "example") = true
  · rw [if_pos h]
    exact ⟨rfl, _, rfl⟩
  · rw [if_neg h]
    exact handleGeneralQuery_wf df q

/-- `process_query` always returns a response string and the agent
name. -/
theorem process_query_wf (df : DataAnalysis.DataFrame) (q : String) :
    respAgentOk (DataAnalysis.process_query df q) := by
  unfold DataAnalysis.process_query
  dsimp only
  split_ifs
  · exact handleCountQuery_wf df q
  · exact handleAverageQuery_wf df q
  · exact handleSumQuery_wf df q
  · exact handleStatusQuery_wf df q
  · exact handleCustomerQuery_wf df q
  · exact handleDateQuery_wf df q
  · exact handleDisplayQuery_wf df q
  · exact handleGeneralQuery_wf df q

/-- C7: `DataAnalyzer.process_query` answers every query: the result
dictionary always carries a `response` string and the agent name
`DataAnalyst`, and the query is routed by keyword in the fixed priority
order count/how many/total/number, then average/mean/avg, then sums,
then status, then customer, then date, then show/display, falling
through to the general handler when no keyword matches. -/
theorem claim_C7_process_query (df : DataAnalysis.DataFrame) (q : String) :
    respAgentOk (DataAnalysis.process_query df q) ∧
    (DataAnalysis.kwAny (pyLower q) ["count", "how many", "total", "number"] = true →
      DataAnalysis.process_query df q = DataAnalysis.handleCountQuery df q) ∧
    (DataAnalysis.kwAny (pyLower q) ["count", "how many", "total", "number"] = false →
      DataAnalysis.kwAny (pyLower q) ["average", "mean", "avg"] = true →
      DataAnalysis.process_query df q = DataAnalysis.handleAverageQuery df q) ∧
    (DataAnalysis.kwAny (pyLower q) ["count", "how many", "total", "number"] = false →
      DataAnalysis.kwAny (pyLower q) ["average", "mean", "avg"] = false →
      DataAnalysis.kwAny (pyLower q) ["sum", "total value", "total amount"] = true →
      DataAnalysis.process_query df q = DataAnalysis.handleSumQuery df q) ∧
    (DataAnalysis.kwAny (pyLower q) ["count", "how many", "total", "number"] = false →
      DataAnalysis.kwAny (pyLower q) ["average", "mean", "avg"] = false →
      DataAnalysis.kwAny (pyLower q) ["sum", "total value", "total amount"] = false →
      DataAnalysis.kwAny (pyLower q) ["status", "pending", "completed", "cancelled", "shipped"] = true →
      DataAnalysis.process_query df q = DataAnalysis.handleStatusQuery df q) ∧
    (DataAnalysis.kwAny (pyLower q) ["count", "how many", "total", "number"] = false →
      DataAnalysis.kwAny (pyLower q) ["average", "mean", "avg"] = false →
      DataAnalysis.kwAny (pyLower q) ["sum", "total value", "total amount"] = false →
      DataAnalysis.kwAny (pyLower q) ["status", "pending", "completed", "cancelled", "shipped"] = false →
      DataAnalysis.kwAny (pyLower q) ["customer", "client", "top customer"] = true →
      DataAnalysis.process_query df q = DataAnalysis.handleCustomerQuery df q) ∧
    (DataAnalysis.kwAny (pyLower q) ["count", "how many", "total", "number"] = false →
      DataAnalysis.kwAny (pyLower q) ["average", "mean", "avg"] = false →
      DataAnalysis.kwAny (pyLower q) ["sum", "total value", "total amount"] = false →
      DataAnalysis.kwAny (pyLower q) ["status", "pending", "completed", "cancelled", "shipped"] = false →
      DataAnalysis.kwAny (pyLower q) ["customer", "client", "top customer"] = false →
      DataAnalysis.kwAny (pyLower q) ["date", "time", "when", "trend"] = true →
      DataAnalysis.process_query df q = DataAnalysis.handleDateQuery df q) ∧
    (DataAnalysis.kwAny (pyLower q) ["count", "how many", "total", "number"] = false →
      DataAnalysis.kwAny (pyLower q) ["average", "mean", "avg"] = false →
      DataAnalysis.kwAny (pyLower q) ["sum", "total value", "total amount"] = false →
      DataAnalysis.kwAny (pyLower q) ["status", "pending", "completed", "cancelled", "shipped"] = false →
      DataAnalysis.kwAny (pyLower q) ["customer", "client", "top customer"] = false →
      DataAnalysis.kwAny (pyLower q) ["date", "time", "when", "trend"] = false →
      DataAnalysis.kwAny (pyLower q) ["show", "display", "list", "view"] = true →
      DataAnalysis.process_query df q = DataAnalysis.handleDisplayQuery df q) ∧
    (DataAnalysis.kwAny (pyLower q) ["count", "how many", "total", "number"] = false →
      DataAnalysis.kwAny (pyLower q) ["average", "mean", "avg"] = false →
      DataAnalysis.kwAny (pyLower q) ["sum", "total value", "total amount"] = false →
      DataAnalysis.kwAny (pyLower q) ["status", "pending", "completed", "cancelled", "shipped"] = false →
      DataAnalysis.kwAny (pyLower q) ["customer", "client", "top customer"] = false →
      DataAnalysis.kwAny (pyLower q) ["date", "time", "when", "trend"] = false →
      DataAnalysis.kwAny (pyLower q) ["show", "display", "list", "view"] = false →
      DataAnalysis.process_query df q = DataAnalysis.handleGeneralQuery df q) := by
  refine ⟨process_query_wf df q, ?_, ?_, ?_, ?_, ?_, ?_, ?_, ?_⟩
  · intro h1
    simp [DataAnalysis.process_query, h1]
  · intro h1 h2
    simp [DataAnalysis.process_query, h1, h2]
  · intro h1 h2 h3
    simp [DataAnalysis.process_query, h1, h2, h3]
  · intro h1 h2 h3 h4
    simp [DataAnalysis.process_query, h1, h2, h3, h4]
  · intro h1 h2 h3 h4 h5
    simp [DataAnalysis.process_query, h1, h2, h3, h4, h5]
  · intro h1 h2 h3 h4 h5 h6
    simp [DataAnalysis.process_query, h1, h2, h3, h4, h5, h6]
  · intro h1 h2 h3 h4 h5 h6 h7
    simp [DataAnalysis.process_query, h1, h2, h3, h4, h5, h6, h7]
  · intro h1 h2 h3 h4 h5 h6 h7
    simp [DataAnalysis.process_query, h1, h2, h3, h4, h5, h6, h7]

/-- C7 witness: on the empty DataFrame, `count items` is routed to the
count handler (priority over everything), `average price` to the
average handler, and a keyword-free query to the general handler. -/
theorem claim_C7_witness :
    DataAnalysis.process_query { nrows := 0, cols := [] } "count items" =
      DataAnalysis.handleCountQuery { nrows := 0, cols := [] } "count items" ∧
    DataAnalysis.process_query { nrows := 0, cols := [] } "average price" =
      DataAnalysis.handleAverageQuery { nrows := 0, cols := [] } "average price" ∧
    DataAnalysis.process_query { nrows := 0, cols := [] } "hello" =
      DataAnalysis.handleGeneralQuery { nrows := 0, cols := [] } "hello" :=
  ⟨(claim_C7_process_query _ "count items").2.1 (by decide),
   (claim_C7_process_query _ "average price").2.2.1 (by decide) (by decide),
   (claim_C7_process_query _ "hello").2.2.2.2.2.2.2.2 (by decide) (by decide) (by decide)
     (by decide) (by decide) (by decide) (by decide)⟩

/-- Inserting into a list is a permutation of consing. -/
theorem insertSorted_perm {α : Type} (le : α → α → Bool) (x : α) :
    ∀ l : List α, List.Perm (insertSorted le x l) (x :: l)
  | [] => List.Perm.refl _
  | y :: t => by
    unfold insertSorted
    by_cases h : le y x
    · rw [if_pos h]
      exact ((insertSorted_perm le x t).cons y).trans (List.Perm.swap x y t)
    · rw [if_neg h]

/-- The insertion-sort fold permutes the accumulator followed by the
input. -/
theorem stableSortBy_fold_perm {α : Type} (le : α → α → Bool) :
    ∀ (l acc : List α),
      List.Perm (l.foldl (fun acc x => insertSorted le x acc) acc) (acc ++ l)
  | [], acc => by simp
  | x :: t, acc => by
    rw [List.foldl_cons]
    have h1 := stableSortBy_fold_perm le t (insertSorted le x acc)
    have h2 : List.Perm (insertSorted le x acc ++ t) (acc ++ x :: t) :=
      List.Perm.trans (List.Perm.append_right t (insertSorted_perm le x acc))
        List.perm_middle.symm
    exact h1.trans h2

/-- `stableSortBy` permutes its input. -/
theorem stableSortBy_perm {α : Type} (le : α → α → Bool) (l : List α) :
    List.Perm (stableSortBy le l) l := by
  simpa using stableSortBy_fold_perm le l []

/-- Inserting into a `le`-pairwise list keeps it pairwise, for a total
transitive `le`. -/
theorem insertSorted_pairwise {α : Type} (le : α → α → Bool)
    (htot : ∀ a b, le a b || le b a)
    (htrans : ∀ a b c, le a b = true → le b c = true → le a c = true)
    (x : α) :
    ∀ l : List α, l.Pairwise (fun a b => le a b = true) →
      (insertSorted le x l).Pairwise (fun a b => le a b = true)
  | [], _ => by simp [insertSorted]
  | y :: t, h => by
    rw [List.pairwise_cons] at h
    unfold insertSorted
    by_cases hyx : le y x
    · rw [if_pos hyx]
      rw [List.pairwise_cons]
      refine ⟨?_, insertSorted_pairwise le htot htrans x t h.2⟩
      intro z hz
      rcases List.mem_cons.mp ((insertSorted_perm le x t).mem_iff.mp hz) with rfl | hzt
      · exact hyx
      · exact h.1 z hzt
    · rw [if_neg hyx]
      have hxy : le x y = true := by
        have h2 := htot x y
        rw [Bool.or_eq_true] at h2
        exact h2.resolve_right (by simpa using hyx)
      rw [List.pairwise_cons]
      refine ⟨?_, List.pairwise_cons.mpr h⟩
      intro z hz
      rcases List.mem_cons.mp hz with rfl | hzt
      · exact hxy
      · exact htrans x y z hxy (h.1 z hzt)

/-- The insertion-sort fold keeps the accumulator pairwise. -/
theorem stableSortBy_fold_pairwise {α : Type} (le : α → α → Bool)
    (htot : ∀ a b, le a b || le b a)
    (htrans : ∀ a b c, le a b = true → le b c = true → le a c = true) :
    ∀ (l acc : List α), acc.Pairwise (fun a b => le a b = true) →
      (l.foldl (fun acc x => insertSorted le x acc) acc).Pairwise
        (fun a b => le a b = true)
  | [], _, h => h
  | x :: t, acc, h =>
    stableSortBy_fold_pairwise le htot htrans t (insertSorted le x acc)
      (insertSorted_pairwise le htot htrans x acc h)

/-- `stableSortBy` sorts with respect to a total transitive `le`. -/
theorem stableSortBy_pairwise {α : Type} (le : α → α → Bool)
    (htot : ∀ a b, le a b || le b a)
    (htrans : ∀ a b c, le a b = true → le b c = true → le a c = true)
    (l : List α) :
    (stableSortBy le l).Pairwise (fun a b => le a b = true) :=
  stableSortBy_fold_pairwise le htot htrans l [] List.Pairwise.nil

/-- Every element kept by the dedup pass was absent from `seen`. -/
theorem dedupKeepFirst_go_not_seen (y : Extractor.WestlRow) :
    ∀ (seen l : List Extractor.WestlRow), y ∈ dedupKeepFirst.go seen l → y ∉ seen
  | _, [], h => by simp [dedupKeepFirst.go] at h
  | seen, x :: t, h => by
    unfold dedupKeepFirst.go at h
    by_cases hc : seen.contains x
    · rw [if_pos hc] at h
      exact dedupKeepFirst_go_not_seen y seen t h
    · rw [if_neg hc] at h
      rcases List.mem_cons.mp h with rfl | hmem
      · simpa [List.contains] using hc
      · have h2 := dedupKeepFirst_go_not_seen y (seen ++ [x]) t hmem
        intro hy
        exact h2 (List.mem_append_left _ hy)

/-- The dedup pass yields a list with no duplicates. -/
theorem dedupKeepFirst_go_nodup :
    ∀ (seen l : List Extractor.WestlRow), (dedupKeepFirst.go seen l).Nodup
  | _, [] => by simp [dedupKeepFirst.go]
  | seen, x :: t => by
    unfold dedupKeepFirst.go
    by_cases hc : seen.contains x
    · rw [if_pos hc]
      exact dedupKeepFirst_go_nodup seen t
    · rw [if_neg hc]
      refine List.nodup_cons.mpr ⟨?_, dedupKeepFirst_go_nodup (seen ++ [x]) t⟩
      intro hmem
      exact dedupKeepFirst_go_not_seen x (seen ++ [x]) t hmem
        (List.mem_append_right _ (List.mem_singleton.mpr rfl))

/-- The dedup pass keeps only elements of the input. -/
theorem dedupKeepFirst_go_subset (y : Extractor.WestlRow) :
    ∀ (seen l : List Extractor.WestlRow), y ∈ dedupKeepFirst.go seen l → y ∈ l
  | _, [], h => by simp [dedupKeepFirst.go] at h
  | seen, x :: t, h => by
    unfold dedupKeepFirst.go at h
    by_cases hc : seen.contains x
    · rw [if_pos hc] at h
      exact List.mem_cons_of_mem x (dedupKeepFirst_go_subset y seen t h)
    · rw [if_neg hc] at h
      rcases List.mem_cons.mp h with rfl | hmem
      · exact List.mem_cons_self y t
      · exact List.mem_cons_of_mem x (dedupKeepFirst_go_subset y (seen ++ [x]) t hmem)

/-- Every row produced by `extract_po_info_Westl` carries the document
number `PO` + first integer token of the PDF’s text. -/
theorem westl_row_docNumber (f : PdfFile) (r : Extractor.WestlRow)
    (hr : r ∈ (Extractor.extract_po_info_Westl f).rows) :
    ∃ text, f.read = PdfRead.ok text ∧
      r.documentNumber = Extractor.westlDocNumber text := by
  obtain ⟨path, read⟩ := f
  cases read with
  | exn m => simp [Extractor.extract_po_info_Westl] at hr
  | ok text =>
    refine ⟨text, rfl, ?_⟩
    simp only [Extractor.extract_po_info_Westl] at hr
    split at hr
    · simp at hr
    · rcases List.mem_map.mp hr with ⟨blk, _, hblk⟩
      rw [← hblk]
      rfl

/-- C8: in both `parse_block` versions, whenever the built row has
non-empty `Price` and `Total` strings, the numeric value of `Total` is
at least that of `Price` (`Price` is the first `^\\d+\\.\\d+$` line other
than `0.0000`, `Total` the maximal such line by value), and `Quantity`
is the string of `round(Total/Price, 4)` — or empty when the division
fails because `Price` is numerically zero.  `parse_block` is total, so
it never raises. -/
theorem claim_C8_price_total_quantity (bls : List String) :
    (∀ p t, (Extractor.parse_block bls).lookup "Price" = some p →
      (Extractor.parse_block bls).lookup "Total" = some t →
      p ≠ "" → t ≠ "" →
      floatLineVal p ≤ floatLineVal t ∧
      (Extractor.parse_block bls).lookup "Quantity" =
        some (if floatLineVal p = 0 then ""
              else renderFloat4 (pyRound4 (floatLineVal t / floatLineVal p)))) ∧
    (∀ p t, (Helpers.parse_block bls).lookup "Price" = some p →
      (Helpers.parse_block bls).lookup "Total" = some t →
      p ≠ "" → t ≠ "" →
      floatLineVal p ≤ floatLineVal t ∧
      (Helpers.parse_block bls).lookup "Quantity" =
        some (if floatLineVal p = 0 then ""
              else renderFloat4 (pyRound4 (floatLineVal t / floatLineVal p)))) := by
  constructor
  · intro p t hp ht hpne htne
    have hp' : (Extractor.parse_block bls).lookup "Price" = some (Extractor.priceOf bls) := rfl
    have ht' : (Extractor.parse_block bls).lookup "Total" = some (Extractor.totalOf bls) := rfl
    have hq' : (Extractor.parse_block bls).lookup "Quantity" =
        some (Extractor.quantityOf bls) := rfl
    rw [hp'] at hp
    rw [ht'] at ht
    obtain rfl := Option.some.inj hp
    obtain rfl := Option.some.inj ht
    have hcore := price_total_quantity_core bls hpne htne
    exact ⟨hcore.1, by rw [hq', hcore.2]⟩
  · intro p t hp ht hpne htne
    have hp' : (Helpers.parse_block bls).lookup "Price" =
        some (Extractor.priceOf (bls.map pyStrip)) := rfl
    have ht' : (Helpers.parse_block bls).lookup "Total" =
        some (Extractor.totalOf (bls.map pyStrip)) := rfl
    have hq' : (Helpers.parse_block bls).lookup "Quantity" =
        some (Extractor.quantityOf (bls.map pyStrip)) := rfl
    rw [hp'] at hp
    rw [ht'] at ht
    obtain rfl := Option.some.inj hp
    obtain rfl := Option.some.inj ht
    have hcore := price_total_quantity_core (bls.map pyStrip) hpne htne
    exact ⟨hcore.1, by rw [hq', hcore.2]⟩

/-- C8 witness: a block whose float lines are `2.0000` and `6.0000`
(after excluding the literal `0.0000`) gets `Price ≤ Total` and
`Quantity = "3.0"`; a block whose price line is numerically zero
(`0.00`, which the `"0.0000"` filter does not exclude) gets an empty
quantity. -/
theorem claim_C8_witness :
    (floatLineVal "2.0000" ≤ floatLineVal "6.0000" ∧
      (Extractor.parse_block ["0.0000", "2.0000", "6.0000"]).lookup "Quantity" =
        some (if floatLineVal "2.0000" = 0 then ""
              else renderFloat4 (pyRound4 (floatLineVal "6.0000" / floatLineVal "2.0000")))) ∧
    (floatLineVal "0.00" ≤ floatLineVal "5.5" ∧
      (Extractor.parse_block ["0.00", "5.5"]).lookup "Quantity" =
        some (if floatLineVal "0.00" = 0 then ""
              else renderFloat4 (pyRound4 (floatLineVal "5.5" / floatLineVal "0.00")))) ∧
    (Extractor.parse_block ["0.0000", "2.0000", "6.0000"]).lookup "Quantity" = some "3.0" ∧
    (Extractor.parse_block ["0.00", "5.5"]).lookup "Quantity" = some "" :=
  ⟨(claim_C8_price_total_quantity ["0.0000", "2.0000", "6.0000"]).1 "2.0000" "6.0000"
      (by decide) (by decide) (by decide) (by decide),
   (claim_C8_price_total_quantity ["0.00", "5.5"]).1 "0.00" "5.5"
      (by decide) (by decide) (by decide) (by decide),
   by decide, by decide⟩

/-- C10: the DataFrame returned by the Westell page’s `process_files`
has pairwise distinct rows, is sorted in ascending order of the
`Document Number` column, and every row’s document number is `PO`
followed by the first integer token of its PDF’s text (empty when the
text has no digits — folded into `westlDocNumber`). -/
theorem claim_C10_westell_df (uploads : List Upload) :
    (Westell.process_files_rows uploads).Nodup ∧
    (Westell.process_files_rows uploads).Pairwise
      (fun a b => a.documentNumber ≤ b.documentNumber) ∧
    (∀ r ∈ Westell.process_files_rows uploads,
      ∃ f ∈ uploadPdfs uploads, ∃ text, f.read = PdfRead.ok text ∧
        r.documentNumber = Extractor.westlDocNumber text) := by
  have htot : ∀ a b : Extractor.WestlRow, docNumLe a b || docNumLe b a := by
    intro a b
    simp only [docNumLe, Bool.or_eq_true, decide_eq_true_eq]
    exact le_total a.documentNumber b.documentNumber
  have htrans : ∀ a b c : Extractor.WestlRow,
      docNumLe a b = true → docNumLe b c = true → docNumLe a c = true := by
    intro a b c hab hbc
    simp only [docNumLe, decide_eq_true_eq] at *
    exact le_trans hab hbc
  unfold Westell.process_files_rows
  by_cases he : (Westell.allRows uploads).isEmpty
  · simp [he]
  · rw [if_neg (by simpa using he)]
    have hperm := stableSortBy_perm docNumLe (dedupKeepFirst (Westell.allRows uploads))
    refine ⟨?_, ?_, ?_⟩
    · exact hperm.nodup_iff.mpr (dedupKeepFirst_go_nodup [] (Westell.allRows uploads))
    · have hp := stableSortBy_pairwise docNumLe htot htrans
        (dedupKeepFirst (Westell.allRows uploads))
      exact hp.imp (fun h => by simpa [docNumLe] using h)
    · intro r hr
      have hr1 : r ∈ dedupKeepFirst (Westell.allRows uploads) := hperm.mem_iff.mp hr
      have hr2 : r ∈ Westell.allRows uploads :=
        dedupKeepFirst_go_subset r [] (Westell.allRows uploads) hr1
      unfold Westell.allRows at hr2
      rw [foldl_append_flatMap] at hr2
      simp only [List.nil_append, List.mem_flatMap] at hr2
      rcases hr2 with ⟨f, hf, hrf⟩
      rcases westl_row_docNumber f r hrf with ⟨text, hread, hdoc⟩
      exact ⟨f, hf, text, hread, hdoc⟩

/-- C10 witness: the theorem instantiated at a concrete upload, naming
the PDF whose text supplies the `PO77` document number of the single
row of the returned frame. -/
theorem claim_C10_witness :
    ∃ f ∈ uploadPdfs [Upload.pdf westellSamplePdf],
      ∃ text, f.read = PdfRead.ok text ∧
        ((Westell.process_files_rows [Upload.pdf westellSamplePdf]).headD
          default).documentNumber = Extractor.westlDocNumber text :=
  (claim_C10_westell_df _).2.2 _ (by decide)

/-- C6: `process_step_file` wraps the CAD library as claimed: for every
readable STEP file it returns a one-row table with `SV` the solid
volume divided by 1000 (mm³ → cm³), `SV_weight_kg = SV · density /
1000`, `BV/5000` the bounding-box volume divided by 5,000,000, and
`max_internal_or_weight` their maximum; a material name whose lowercase
form is not in the density table gets steel's density 7.85. -/
theorem claim_C6_step_table :
    (∀ (v x y z : ℚ) (m : String),
      WeightCalc.process_step_file (WeightCalc.StepRead.ok v x y z) (WeightCalc.Material.name m) =
        some [{ x := x, y := y, z := z,
                bv5000 := x * y * z / 5000000,
                sv := v / 1000,
                density := WeightCalc.densityFor (WeightCalc.Material.name m),
                svWeightKg := v / 1000 * WeightCalc.densityFor (WeightCalc.Material.name m) / 1000,
                maxInternalOrWeight :=
                  max (x * y * z / 5000000)
                    (v / 1000 * WeightCalc.densityFor (WeightCalc.Material.name m) / 1000) }]) ∧
    (∀ m : String, (WeightCalc.MATERIAL_DENSITIES.lookup (pyLower m)) = none →
      WeightCalc.densityFor (WeightCalc.Material.name m) = 785/100) := by
  constructor
  · intro v x y z m
    rfl
  · intro m h
    simp [WeightCalc.densityFor, h]

/-- C6 witness: the table formulas at a concrete volume and box, and
steel's default density for the unknown material `wood`. -/
theorem claim_C6_witness :
    WeightCalc.process_step_file (WeightCalc.StepRead.ok 12000 10 20 30)
        (WeightCalc.Material.name "wood") =
      some [{ x := 10, y := 20, z := 30,
              bv5000 := 10 * 20 * 30 / 5000000,
              sv := 12000 / 1000,
              density := WeightCalc.densityFor (WeightCalc.Material.name "wood"),
              svWeightKg := 12000 / 1000 * WeightCalc.densityFor (WeightCalc.Material.name "wood") / 1000,
              maxInternalOrWeight :=
                max (10 * 20 * 30 / 5000000)
                  (12000 / 1000 * WeightCalc.densityFor (WeightCalc.Material.name "wood") / 1000) }] ∧
    WeightCalc.densityFor (WeightCalc.Material.name "wood") = 785/100 :=
  ⟨claim_C6_step_table.1 12000 10 20 30 "wood",
   claim_C6_step_table.2 "wood" (by decide)⟩

end POParser
